import Mathlib

set_option maxRecDepth 100000

/-!
Shallow embedding of `stocks.py`: a stock-report parsing, normalization,
batch-processing and aggregation pipeline.  Python strings are `String`
(operated on as `List Char`), floats are `ℚ`, `datetime` values are `Date`
triples (all times are midnight), the filesystem is an explicit `FS` state,
and fallible code returns `Option` / `Except`.
-/

/-- Numeric value of an ASCII digit character. -/
def dval (c : Char) : Nat := c.toNat - 48

/-- ASCII model of the whitespace class matched by Python `\s` and stripped
by `str.strip()`. -/
def isSpaceC (c : Char) : Bool :=
  c = ' ' || c = '\t' || c = '\n' || c = '\r' || c = '\x0b' || c = '\x0c'

/-- ASCII model of the Python regex `\w` class (the input texts are ASCII). -/
def isWordC (c : Char) : Bool := c.isAlphanum || c = '_'

/-- Decimal digits of a natural number, structurally recursive on a fuel
argument so that it evaluates by plain reduction. -/
def natDigitsF : Nat → Nat → List Char
  | 0, n => [Nat.digitChar n]
  | f + 1, n =>
    if n < 10 then [Nat.digitChar n]
    else natDigitsF f (n / 10) ++ [Nat.digitChar (n % 10)]

/-- Decimal digits of a natural number, as produced by Python `str(n)`:
the fuel `n` always suffices since the argument shrinks tenfold each step. -/
def natDigits (n : Nat) : List Char := natDigitsF n n

/-- Zero-padded fixed-width decimal rendering, as produced by `strftime`
directives `%Y` / `%m` / `%d` (always applied to in-range values here). -/
def fixedDigits : Nat → Nat → List Char
  | 0, _ => []
  | w + 1, n => Nat.digitChar (n / 10 ^ w) :: fixedDigits w (n % 10 ^ w)

/-- Value of a string of decimal digits. -/
def digitsVal (l : List Char) : Nat := l.foldl (fun a c => 10 * a + dval c) 0

/-- Lexicographic comparison of char lists by code point: Python `str` `<=`. -/
def lexLe : List Char → List Char → Bool
  | [], _ => true
  | _ :: _, [] => false
  | a :: as, b :: bs =>
    if a.toNat < b.toNat then true
    else if b.toNat < a.toNat then false
    else lexLe as bs

/-- Python `str.strip()`: drop whitespace from both ends. -/
def pyStrip (l : List Char) : List Char :=
  ((l.dropWhile isSpaceC).reverse.dropWhile isSpaceC).reverse

/-! Matching machinery for the six compiled regex patterns.  Each pattern in
the source has the form `.*LABEL: (GROUP)` and is used with `re.search`
(no DOTALL/MULTILINE): the match lands on the first newline-separated line
containing an occurrence of the sub-pattern after `.*`, and the greedy `.*`
selects the occurrence starting at the last feasible position in that line.
Each matcher below tries the sub-pattern at the start of a char list and
returns the captured group, with the same greedy/backtracking preferences
as the Python pattern. -/

/-- Match an exact literal, returning the rest of the input. -/
def lit : List Char → List Char → Option (List Char)
  | [], cs => some cs
  | _ :: _, [] => none
  | l :: ls, c :: cs => if c = l then lit ls cs else none

/-- Match exactly `n` characters satisfying `p`, returning them and the rest. -/
def takeCount (p : Char → Bool) : Nat → List Char → Option (List Char × List Char)
  | 0, cs => some ([], cs)
  | _ + 1, [] => none
  | n + 1, c :: cs =>
    if p c then
      match takeCount p n cs with
      | none => none
      | some (ds, r) => some (c :: ds, r)
    else none

/-- Greedy `.?`: prefer consuming one (non-newline) character before the
continuation, falling back to consuming none. -/
def optAnyThen (k : List Char → Option (List Char)) : List Char → Option (List Char)
  | [] => k []
  | c :: cs =>
    if c = '\n' then k (c :: cs)
    else
      match k cs with
      | some g => some g
      | none => k (c :: cs)

/-- Capture group `(\d{2}-\w{3}-\d{4})` of the two date patterns. -/
def grpDate (cs : List Char) : Option (List Char) :=
  match takeCount Char.isDigit 2 cs with
  | none => none
  | some (dd, r1) =>
    match lit ['-'] r1 with
    | none => none
    | some r2 =>
      match takeCount isWordC 3 r2 with
      | none => none
      | some (mon, r3) =>
        match lit ['-'] r3 with
        | none => none
        | some r4 =>
          match takeCount Char.isDigit 4 r4 with
          | none => none
          | some (yy, _) => some (dd ++ '-' :: mon ++ '-' :: yy)

/-- Capture group `(C\d{6,7})` (greedy: seven digits preferred over six). -/
def grpAwardId (cs : List Char) : Option (List Char) :=
  match lit ['C'] cs with
  | none => none
  | some r =>
    match takeCount Char.isDigit 7 r with
    | some (ds, _) => some ('C' :: ds)
    | none =>
      match takeCount Char.isDigit 6 r with
      | some (ds, _) => some ('C' :: ds)
      | none => none

/-- Tail `.\d{4}` of the vest-price group: one arbitrary non-newline
character (the dot in the source pattern is unescaped) then four digits. -/
def vestAny4 (pre : List Char) (r : List Char) : Option (List Char) :=
  match r with
  | [] => none
  | x :: r2 =>
    if x = '\n' then none
    else
      match takeCount Char.isDigit 4 r2 with
      | none => none
      | some (d4, _) => some (pre ++ x :: d4)

/-- Part `\d{2,3}.\d{4}` of the vest-price group (greedy digit count). -/
def vestTail (cs : List Char) : Option (List Char) :=
  match takeCount Char.isDigit 3 cs with
  | some (a, r) =>
    match vestAny4 a r with
    | some g => some g
    | none =>
      match takeCount Char.isDigit 2 cs with
      | some (b, r2) => vestAny4 b r2
      | none => none
  | none =>
    match takeCount Char.isDigit 2 cs with
    | some (b, r2) => vestAny4 b r2
    | none => none

/-- Part `,?\d{2,3}.\d{4}` of the vest-price group (greedy optional comma). -/
def vestComma (cs : List Char) : Option (List Char) :=
  match cs with
  | ',' :: r1 =>
    (match vestTail r1 with
     | some g => some (',' :: g)
     | none => vestTail cs)
  | _ => vestTail cs

/-- Part `\d?,?\d{2,3}.\d{4}` of the vest-price group (greedy optional digit). -/
def grpVestDigit (cs : List Char) : Option (List Char) :=
  match cs with
  | c :: r1 =>
    if c.isDigit then
      match vestComma r1 with
      | some g => some (c :: g)
      | none => vestComma cs
    else vestComma cs
  | [] => vestComma []

/-- Capture group `(\$\d?,?\d{2,3}.\d{4})` of the vest-price pattern. -/
def grpVest (cs : List Char) : Option (List Char) :=
  match lit ['$'] cs with
  | none => none
  | some r0 =>
    match grpVestDigit r0 with
    | some g => some ('$' :: g)
    | none => none

/-- Quantity group starting with exactly `n` digits: `\.\d{4}\s?` after them.
The optional trailing whitespace is part of the captured group. -/
def qtyFrom (n : Nat) (cs : List Char) : Option (List Char) :=
  match takeCount Char.isDigit n cs with
  | none => none
  | some (a, r) =>
    match lit ['.'] r with
    | none => none
    | some r2 =>
      match takeCount Char.isDigit 4 r2 with
      | none => none
      | some (b, r3) =>
        some (a ++ '.' :: b ++ (match r3 with
          | c :: _ => if isSpaceC c then [c] else []
          | [] => []))

/-- Capture group `(\d{1,3}\.\d{4}\s?)` of the two quantity patterns
(greedy: three leading digits preferred, then two, then one). -/
def grpQty (cs : List Char) : Option (List Char) :=
  match qtyFrom 3 cs with
  | some g => some g
  | none =>
    match qtyFrom 2 cs with
    | some g => some g
    | none => qtyFrom 1 cs

/-- Sub-pattern of `RE_AWARD_DATE` after the leading `.*`:
`Award.?Date: (\d{2}-\w{3}-\d{4})`. -/
def RE_AWARD_DATE (cs : List Char) : Option (List Char) :=
  match lit "Award".data cs with
  | none => none
  | some r =>
    optAnyThen (fun r2 =>
      match lit "Date: ".data r2 with
      | none => none
      | some r3 => grpDate r3) r

/-- Sub-pattern of `RE_AWARD_ID` after the leading `.*`:
`Award.?ID: (C\d{6,7})`. -/
def RE_AWARD_ID (cs : List Char) : Option (List Char) :=
  match lit "Award".data cs with
  | none => none
  | some r =>
    optAnyThen (fun r2 =>
      match lit "ID: ".data r2 with
      | none => none
      | some r3 => grpAwardId r3) r

/-- Sub-pattern of `RE_RELEASE_DATE` after the leading `.*`:
`Release.?Date: (\d{2}-\w{3}-\d{4})`. -/
def RE_RELEASE_DATE (cs : List Char) : Option (List Char) :=
  match lit "Release".data cs with
  | none => none
  | some r =>
    optAnyThen (fun r2 =>
      match lit "Date: ".data r2 with
      | none => none
      | some r3 => grpDate r3) r

/-- Sub-pattern of `RE_VEST_PRICE` after the leading `.*`:
`FMV.?@.?Vest: (\$\d?,?\d{2,3}.\d{4})`. -/
def RE_VEST_PRICE (cs : List Char) : Option (List Char) :=
  match lit "FMV".data cs with
  | none => none
  | some r =>
    optAnyThen (fun r2 =>
      match lit "@".data r2 with
      | none => none
      | some r3 =>
        optAnyThen (fun r4 =>
          match lit "Vest: ".data r4 with
          | none => none
          | some r5 => grpVest r5) r3) r

/-- Sub-pattern of `RE_QTY_RELEASED` after the leading `.*`:
`Quantity.?Released: (\d{1,3}\.\d{4}\s?)`. -/
def RE_QTY_RELEASED (cs : List Char) : Option (List Char) :=
  match lit "Quantity".data cs with
  | none => none
  | some r =>
    optAnyThen (fun r2 =>
      match lit "Released: ".data r2 with
      | none => none
      | some r3 => grpQty r3) r

/-- Sub-pattern of `RE_QTY_NET` after the leading `.*`:
`Net.?Quantity: (\d{1,3}\.\d{4}\s?)`. -/
def RE_QTY_NET (cs : List Char) : Option (List Char) :=
  match lit "Net".data cs with
  | none => none
  | some r =>
    optAnyThen (fun r2 =>
      match lit "Quantity: ".data r2 with
      | none => none
      | some r3 => grpQty r3) r

/-- Split a char list into its newline-separated lines. -/
def splitLines : List Char → List (List Char)
  | [] => [[]]
  | c :: rest =>
    match splitLines rest with
    | [] => [[c]]
    | l :: ls => if c = '\n' then [] :: l :: ls else (c :: l) :: ls

/-- Greedy `.*` within one line: the sub-pattern occurrence starting at the
last feasible position of the line wins. -/
def lastMatchInLine (p : List Char → Option (List Char)) (line : List Char) :
    Option (List Char) :=
  ((List.range (line.length + 1)).filterMap (fun i => p (line.drop i))).getLast?

/-- Scan lines in order; the first line containing a match wins. -/
def searchLines (p : List Char → Option (List Char)) :
    List (List Char) → Option (List Char)
  | [] => none
  | line :: rest =>
    match lastMatchInLine p line with
    | some g => some g
    | none => searchLines p rest

/-- Model of `pattern.search(content)` for the patterns above, returning the
captured group of the selected match. -/
def reSearch (p : List Char → Option (List Char)) (content : String) :
    Option (List Char) :=
  searchLines p (splitLines content.data)

/-- Error taxonomy of a single document parse.  `missing f` stands for
`PDFParsingError("Could not find ... in content.")` naming field `f`;
`emptyPdf` for `PDFParsingError("PDF is empty.")`; `valueError` for a
`ValueError` raised by `strptime`/`float`; `readError` for any exception
raised while opening/reading the document. -/
inductive ParseErr where
  | missing (field_name : String)
  | emptyPdf
  | valueError
  | readError
deriving DecidableEq

/-- The six raw trimmed strings produced by field extraction, in source
order. -/
structure ExtractedFields where
  raw_award_date : String
  award_id : String
  raw_release_date : String
  vest_price : String
  raw_qty_released : String
  raw_qty_net : String
deriving DecidableEq

/-- Immutable data structure for parsed stock report info (`StockData`). -/
structure StockData where
  award_date : String
  award_id : String
  release_date : String
  vest_price : String
  quantity_released : String
  quantity_net : String
deriving DecidableEq

/-- Helper to extract a regex match or fail with the field name
(`extract_field` in the source). -/
def extract_field (pattern : List Char → Option (List Char)) (content : String)
    (field_name : String) : Except ParseErr String :=
  match reSearch pattern content with
  | none => Except.error (ParseErr.missing field_name)
  | some g => Except.ok (String.mk (pyStrip g))

/-- The six `extract_field` calls of `parse_pdf`, in source order; the first
failing field aborts the sequence. -/
def extractAll (content : String) : Except ParseErr ExtractedFields :=
  match extract_field RE_AWARD_DATE content "Award Date" with
  | Except.error e => Except.error e
  | Except.ok raw_award_date =>
  match extract_field RE_AWARD_ID content "Award ID" with
  | Except.error e => Except.error e
  | Except.ok award_id =>
  match extract_field RE_RELEASE_DATE content "Release Date" with
  | Except.error e => Except.error e
  | Except.ok raw_release_date =>
  match extract_field RE_VEST_PRICE content "Vest Price" with
  | Except.error e => Except.error e
  | Except.ok vest_price =>
  match extract_field RE_QTY_RELEASED content "Qty Released" with
  | Except.error e => Except.error e
  | Except.ok raw_qty_released =>
  match extract_field RE_QTY_NET content "Qty Net" with
  | Except.error e => Except.error e
  | Except.ok raw_qty_net =>
    Except.ok ⟨raw_award_date, award_id, raw_release_date, vest_price,
      raw_qty_released, raw_qty_net⟩

/-- Name of the i-th field in the fixed extraction check order. -/
def nthFieldName (i : Nat) : String :=
  match i with
  | 0 => "Award Date"
  | 1 => "Award ID"
  | 2 => "Release Date"
  | 3 => "Vest Price"
  | 4 => "Qty Released"
  | _ => "Qty Net"

/-- Search result of the i-th pattern in the fixed extraction check order. -/
def nthFieldSearch (i : Nat) (content : String) : Option (List Char) :=
  match i with
  | 0 => reSearch RE_AWARD_DATE content
  | 1 => reSearch RE_AWARD_ID content
  | 2 => reSearch RE_RELEASE_DATE content
  | 3 => reSearch RE_VEST_PRICE content
  | 4 => reSearch RE_QTY_RELEASED content
  | _ => reSearch RE_QTY_NET content

/-- Calendar date; `datetime` values in the source always have midnight
time, so the date triple determines them. -/
structure Date where
  year : Nat
  month : Nat
  day : Nat
deriving DecidableEq

/-- Gregorian leap-year rule, as validated by `datetime`. -/
def isLeapYear (y : Nat) : Bool :=
  y % 4 == 0 && (y % 100 != 0 || y % 400 == 0)

/-- Number of days of a month, as validated by `datetime`. -/
def daysInMonth (y m : Nat) : Nat :=
  if m = 2 then (if isLeapYear y then 29 else 28)
  else if m = 4 ∨ m = 6 ∨ m = 9 ∨ m = 11 then 30
  else 31

/-- Month abbreviation table used by `strptime` for `%b`. -/
def MONTH_ABBREVS : List (List Char × Nat) :=
  [(['j', 'a', 'n'], 1), (['f', 'e', 'b'], 2), (['m', 'a', 'r'], 3),
   (['a', 'p', 'r'], 4), (['m', 'a', 'y'], 5), (['j', 'u', 'n'], 6),
   (['j', 'u', 'l'], 7), (['a', 'u', 'g'], 8), (['s', 'e', 'p'], 9),
   (['o', 'c', 't'], 10), (['n', 'o', 'v'], 11), (['d', 'e', 'c'], 12)]

/-- Case-insensitive `%b` month abbreviation lookup, as done by `strptime`. -/
def monthAbbrev (l : List Char) : Option Nat :=
  (MONTH_ABBREVS.find? (fun pr => pr.1 == l.map Char.toLower)).map Prod.snd

/-- Model of `datetime.strptime(s, "%d-%b-%Y")` on the `DD-Mon-YYYY` shaped
strings produced by the date captures, with `datetime` range validation. -/
def strptime_dmy (s : String) : Option Date :=
  match s.data with
  | [d1, d2, '-', m1, m2, m3, '-', y1, y2, y3, y4] =>
    if d1.isDigit && d2.isDigit && y1.isDigit && y2.isDigit && y3.isDigit && y4.isDigit then
      match monthAbbrev [m1, m2, m3] with
      | none => none
      | some m =>
        let d := dval d1 * 10 + dval d2
        let y := ((dval y1 * 10 + dval y2) * 10 + dval y3) * 10 + dval y4
        if 1 ≤ y ∧ y ≤ 9999 ∧ 1 ≤ d ∧ d ≤ daysInMonth y m then some ⟨y, m, d⟩
        else none
    else none
  | _ => none

/-- Model of `datetime.strptime(s, "%Y/%m/%d")` on the canonical zero-padded
`YYYY/MM/DD` strings stored in records, with `datetime` range validation. -/
def strptime_ymd (s : String) : Option Date :=
  match s.data with
  | [y1, y2, y3, y4, '/', m1, m2, '/', d1, d2] =>
    if y1.isDigit && y2.isDigit && y3.isDigit && y4.isDigit && m1.isDigit && m2.isDigit
        && d1.isDigit && d2.isDigit then
      let y := ((dval y1 * 10 + dval y2) * 10 + dval y3) * 10 + dval y4
      let m := dval m1 * 10 + dval m2
      let d := dval d1 * 10 + dval d2
      if 1 ≤ y ∧ y ≤ 9999 ∧ 1 ≤ m ∧ m ≤ 12 ∧ 1 ≤ d ∧ d ≤ daysInMonth y m then
        some ⟨y, m, d⟩
      else none
    else none
  | _ => none

/-- Model of `dt.strftime("%Y/%m/%d")`: zero-padded canonical date string. -/
def fmtDate (dt : Date) : String :=
  String.mk (fixedDigits 4 dt.year ++ '/' :: fixedDigits 2 dt.month
    ++ '/' :: fixedDigits 2 dt.day)

/-- Fixed split date constant `datetime(2022, 7, 15)`. -/
def SPLIT_DATE : Date := ⟨2022, 7, 15⟩

/-- Fixed split factor constant `20.0`. -/
def SPLIT_FACTOR : ℚ := 20

/-- Strict `datetime` comparison (lexicographic on year, month, day). -/
def Date.before (a b : Date) : Bool :=
  if a.year < b.year then true
  else if b.year < a.year then false
  else if a.month < b.month then true
  else if b.month < a.month then false
  else decide (a.day < b.day)

/-- Model of Python `float()` on the nonnegative fixed-point decimal strings
this program produces and consumes (digits, optionally a dot and fractional
digits). -/
def parseDecimal (l : List Char) : Option ℚ :=
  let ip := l.takeWhile Char.isDigit
  if ip = [] then none
  else
    match l.dropWhile Char.isDigit with
    | [] => some (digitsVal ip : ℚ)
    | '.' :: fr =>
      if fr.all Char.isDigit then
        some ((digitsVal ip : ℚ) + (digitsVal fr : ℚ) / (10 : ℚ) ^ fr.length)
      else none
    | _ => none

/-- Round to the nearest integer, ties to even: the rounding used by Python
`format` on the (here exactly represented) quantity values. -/
def roundHalfEven (q : ℚ) : ℤ :=
  let f := ⌊q⌋
  if q - f < 1 / 2 then f
  else if 1 / 2 < q - f then f + 1
  else if f % 2 = 0 then f else f + 1

/-- Model of `f"{q:.3f}"` for the nonnegative quantities of this program. -/
def fmt3 (q : ℚ) : String :=
  let m := (roundHalfEven (q * 1000)).toNat
  String.mk (natDigits (m / 1000) ++ '.' :: fixedDigits 3 (m % 1000))

/-- One input document as seen through the external text-extraction
collaborator: reading raises, the PDF has no pages, or it yields the
first-page plain text. -/
inductive PdfDoc where
  | unreadable
  | noPages
  | withText (content : String)
deriving DecidableEq

/-- Body of `parse_pdf` before its `except` clauses: every failure is an
explicit error value. -/
def parsePdfCore (doc : PdfDoc) : Except ParseErr StockData :=
  match doc with
  | PdfDoc.unreadable => Except.error ParseErr.readError
  | PdfDoc.noPages => Except.error ParseErr.emptyPdf
  | PdfDoc.withText content =>
    match extractAll content with
    | Except.error e => Except.error e
    | Except.ok f =>
      match strptime_dmy f.raw_award_date with
      | none => Except.error ParseErr.valueError
      | some award_dt =>
      match strptime_dmy f.raw_release_date with
      | none => Except.error ParseErr.valueError
      | some release_dt =>
      match parseDecimal f.raw_qty_released.data with
      | none => Except.error ParseErr.valueError
      | some qty_rel_float =>
      match parseDecimal f.raw_qty_net.data with
      | none => Except.error ParseErr.valueError
      | some qty_net_float =>
        let adj := Date.before release_dt SPLIT_DATE
        let qr := if adj then qty_rel_float * SPLIT_FACTOR else qty_rel_float
        let qn := if adj then qty_net_float * SPLIT_FACTOR else qty_net_float
        Except.ok
          { award_date := fmtDate award_dt
            award_id := f.award_id
            release_date := fmtDate release_dt
            vest_price := f.vest_price
            quantity_released := fmt3 qr
            quantity_net := fmt3 qn }

/-- `parse_pdf`: parse a single document, returning `none` on any failure
(the `except` clauses catch every exception and return `None`). -/
def parse_pdf (doc : PdfDoc) : Option StockData :=
  (parsePdfCore doc).toOption

/-- The orchestrator loop: one `parse_pdf` task per document, successful
results collected.  Completion order of the pool is unspecified; claims
about totals are proved permutation-invariant. -/
def runBatch (pdf_files : List PdfDoc) : List StockData :=
  pdf_files.filterMap parse_pdf

/-- `sum(float(r.quantity_net) for r in results)`; `none` models the run
aborting if some stored quantity failed to parse back. -/
def totalShares (results : List StockData) : Option ℚ :=
  (results.mapM (fun r => parseDecimal r.quantity_net.data)).map List.sum

/-- Sort key comparison of `results.sort(key=lambda x: x.release_date)`. -/
def recLe (a b : StockData) : Bool :=
  lexLe a.release_date.data b.release_date.data

/-- Stable sort of the results by `release_date`.  Python `list.sort` is a
stable sort under the total preorder `recLe`, and any two stable sorts
agree extensionally, so a structural stable insertion sort embeds it. -/
def sortRecords (results : List StockData) : List StockData :=
  results.insertionSort (fun a b => recLe a b = true)

/-- `StockData._fields`, the CSV header row. -/
def STOCKDATA_FIELDS : List String :=
  ["award_date", "award_id", "release_date", "vest_price",
   "quantity_released", "quantity_net"]

/-- One CSV row per record, fields in `StockData` order. -/
def recordRow (r : StockData) : List String :=
  [r.award_date, r.award_id, r.release_date, r.vest_price,
   r.quantity_released, r.quantity_net]

/-- Minimal-quoting rule of `csv.writer`: quote a field containing the
delimiter, the quote char or a newline, doubling inner quotes. -/
def csvQuote (s : String) : String :=
  if s.data.any (fun c => c = ',' || c = '"' || c = '\r' || c = '\n') then
    String.mk ('"' :: (s.data.foldr
      (fun c acc => (if c = '"' then ['"', '"'] else [c]) ++ acc) []) ++ ['"'])
  else s

/-- One written CSV line: comma-joined quoted fields plus the default
`csv.writer` line terminator CRLF. -/
def csvLine (row : List String) : String :=
  String.intercalate "," (row.map csvQuote) ++ "\r\n"

/-- All CSV rows: header first, then one row per record. -/
def csvRows (rs : List StockData) : List (List String) :=
  STOCKDATA_FIELDS :: rs.map recordRow

/-- Full text content of the written CSV file. -/
def renderCsv (rs : List StockData) : String :=
  String.join ((csvRows rs).map csvLine)

/-- The CSV step of `main`: `if args.write_csv and results:` write the
sorted records to `stocks.csv` in the working directory, else no file. -/
def writeCsvStep (write_csv : Bool) (results : List StockData) :
    Option (String × String) :=
  if write_csv && !results.isEmpty then
    some ("stocks.csv", renderCsv (sortRecords results))
  else none

/-- The aggregation tail of `main`: the summary (processed count and the
total formatted to three decimals) and the optional CSV file; `none` models
an uncaught exception aborting the run. -/
def mainRun (docs : List PdfDoc) (write_csv : Bool) :
    Option ((Nat × String) × Option (String × String)) :=
  let results := runBatch docs
  match totalShares results with
  | none => none
  | some total_shares =>
    some ((results.length, fmt3 total_shares), writeCsvStep write_csv results)

/-- Filesystem state: existing directories and existing files (paths as
strings, treated as sets). -/
structure FS where
  dirs : List String
  files : List String
deriving DecidableEq

/-- `Path(a) / b`: the left side loses its trailing slashes. -/
def joinPath (a b : String) : String :=
  String.mk ((a.data.reverse.dropWhile (fun c => c = '/')).reverse ++ '/' :: b.data)

/-- `output_dir / str(release_dt.year)`. -/
def yearFolder (dt : Date) (output_dir : String) : String :=
  joinPath output_dir (String.mk (natDigits dt.year))

/-- Destination path of `organize_report`:
`<output_dir>/<year>/<YYYYMMDD> - Release Confirm - <award_id>.pdf`. -/
def destPath (dt : Date) (award_id output_dir : String) : String :=
  joinPath (yearFolder dt output_dir)
    (String.mk (fixedDigits 4 dt.year ++ fixedDigits 2 dt.month
      ++ fixedDigits 2 dt.day) ++ " - Release Confirm - " ++ award_id ++ ".pdf")

/-- `organize_report`: parse the release date, create the year folder
(`mkdir parents exist_ok`), then atomically replace the original path with
the destination.  A date `ValueError` or a missing source (`OSError`) is
caught and logged, leaving the corresponding state unchanged. -/
def organize_report (release_date_str award_id : String)
    (original_path : String) (output_dir : String) (fs : FS) : FS :=
  match strptime_ymd release_date_str with
  | none => fs
  | some release_dt =>
    let yf := yearFolder release_dt output_dir
    let new_filepath := destPath release_dt award_id output_dir
    let fs1 : FS := ⟨if yf ∈ fs.dirs then fs.dirs else yf :: fs.dirs, fs.files⟩
    if original_path ∈ fs1.files then
      ⟨fs1.dirs,
       new_filepath :: fs1.files.filter (fun p => p ≠ original_path ∧ p ≠ new_filepath)⟩
    else fs1

/-- Canonical zero-padded `YYYY/MM/DD` date string. -/
def isCanonicalDate (s : String) : Bool :=
  match s.data with
  | [y1, y2, y3, y4, '/', m1, m2, '/', d1, d2] =>
    y1.isDigit && y2.isDigit && y3.isDigit && y4.isDigit && m1.isDigit && m2.isDigit
      && d1.isDigit && d2.isDigit
  | _ => false

/-- Decimal string with a nonempty all-digit integer part and exactly three
fractional digits. -/
def isQty3 (s : String) : Bool :=
  match s.data.reverse with
  | c1 :: c2 :: c3 :: '.' :: rest =>
    c1.isDigit && c2.isDigit && c3.isDigit && !rest.isEmpty && rest.all Char.isDigit
  | _ => false

/-- Award id shape: the letter C followed by six or seven digits. -/
def isAwardId (s : String) : Bool :=
  match s.data with
  | 'C' :: ds => ds.all Char.isDigit && (ds.length == 6 || ds.length == 7)
  | _ => false

/-- Chronological order on dates (lexicographic on year, month, day). -/
def dateLe (a b : Date) : Prop :=
  a.year < b.year ∨ (a.year = b.year ∧
    (a.month < b.month ∨ (a.month = b.month ∧ a.day ≤ b.day)))

/-- Modelled from the spec: the currency shape the claim asserts for vest
prices, literally a dollar sign, a nonempty digit group, a comma, a nonempty
digit group, a decimal point, and exactly four fractional digits. -/
def claimedCurrency (l : List Char) : Bool :=
  match l with
  | '$' :: r =>
    let a := r.takeWhile Char.isDigit
    match r.dropWhile Char.isDigit with
    | ',' :: r2 =>
      let b := r2.takeWhile Char.isDigit
      match r2.dropWhile Char.isDigit with
      | '.' :: r3 => !a.isEmpty && !b.isEmpty && r3.all Char.isDigit && r3.length == 4
      | _ => false
    | _ => false
  | _ => false

/-- Shape actually guaranteed for an extracted vest price by the source
pattern `\$\d?,?\d{2,3}.\d{4}`: a dollar sign, at most one digit, an
optional comma, two or three digits, one arbitrary non-newline character,
and four digits. -/
def VestShape (s : String) : Prop :=
  ∃ (d1 c1 ds : List Char) (x : Char) (d4 : List Char),
    s.data = '$' :: d1 ++ c1 ++ ds ++ x :: d4 ∧
    d1.length ≤ 1 ∧ (∀ c ∈ d1, c.isDigit) ∧
    (c1 = [] ∨ c1 = [',']) ∧
    (ds.length = 2 ∨ ds.length = 3) ∧ (∀ c ∈ ds, c.isDigit) ∧
    x ≠ '\n' ∧
    d4.length = 4 ∧ (∀ c ∈ d4, c.isDigit)

/-- Well-formed synthetic report text used as a concrete test input; its
release date `15-Jul-2022` is exactly the split boundary. -/
def Tgood : String :=
  "Award Date: 05-Jan-2021\nAward ID: C123456\nRelease Date: 15-Jul-2022\nFMV @ Vest: $1,234.5678\nQuantity Released: 10.0000\nNet Quantity: 5.0000\n"

/-- `Tgood` with the award-date line removed. -/
def T_no_award_date : String :=
  "Award ID: C123456\nRelease Date: 15-Jul-2022\nFMV @ Vest: $1,234.5678\nQuantity Released: 10.0000\nNet Quantity: 5.0000\n"

/-- `Tgood` with the award-id line removed. -/
def T_no_award_id : String :=
  "Award Date: 05-Jan-2021\nRelease Date: 15-Jul-2022\nFMV @ Vest: $1,234.5678\nQuantity Released: 10.0000\nNet Quantity: 5.0000\n"

/-- `Tgood` with the release-date line removed. -/
def T_no_release_date : String :=
  "Award Date: 05-Jan-2021\nAward ID: C123456\nFMV @ Vest: $1,234.5678\nQuantity Released: 10.0000\nNet Quantity: 5.0000\n"

/-- `Tgood` with the vest-price line removed. -/
def T_no_vest_price : String :=
  "Award Date: 05-Jan-2021\nAward ID: C123456\nRelease Date: 15-Jul-2022\nQuantity Released: 10.0000\nNet Quantity: 5.0000\n"

/-- `Tgood` with the quantity-released line removed. -/
def T_no_qty_released : String :=
  "Award Date: 05-Jan-2021\nAward ID: C123456\nRelease Date: 15-Jul-2022\nFMV @ Vest: $1,234.5678\nNet Quantity: 5.0000\n"

/-- `Tgood` with the net-quantity line removed. -/
def T_no_qty_net : String :=
  "Award Date: 05-Jan-2021\nAward ID: C123456\nRelease Date: 15-Jul-2022\nFMV @ Vest: $1,234.5678\nQuantity Released: 10.0000\n"

/-- Report text whose vest-price value `$123x4567` is accepted by the
source pattern (its dot is unescaped) yet has no decimal point. -/
def Tvest : String :=
  "Award Date: 05-Jan-2021\nAward ID: C123456\nRelease Date: 15-Jul-2022\nFMV @ Vest: $123x4567\nQuantity Released: 10.0000\nNet Quantity: 5.0000\n"

/-- Pre-split document with raw net quantity 1.0000. -/
def TpreA : String :=
  "Award Date: 05-Jan-2020\nAward ID: C111111\nRelease Date: 01-Jan-2021\nFMV @ Vest: $1,234.5678\nQuantity Released: 1.0000\nNet Quantity: 1.0000\n"

/-- Pre-split document with raw net quantity 2.0000. -/
def TpreB : String :=
  "Award Date: 05-Jan-2020\nAward ID: C222222\nRelease Date: 02-Feb-2022\nFMV @ Vest: $1,234.5678\nQuantity Released: 2.0000\nNet Quantity: 2.0000\n"

/-- Post-split document with raw net quantity 3.0000. -/
def Tpost : String :=
  "Award Date: 05-Jan-2020\nAward ID: C333333\nRelease Date: 10-Jan-2023\nFMV @ Vest: $1,234.5678\nQuantity Released: 3.0000\nNet Quantity: 3.0000\n"

/-- The end-to-end example batch: two pre-split documents and one
post-split document. -/
def exampleDocs : List PdfDoc :=
  [PdfDoc.withText TpreA, PdfDoc.withText TpreB, PdfDoc.withText Tpost]

/-- A batch of five documents in which exactly the third is unreadable. -/
def batch5 : List PdfDoc :=
  [PdfDoc.withText TpreA, PdfDoc.withText TpreB, PdfDoc.unreadable,
   PdfDoc.withText Tpost, PdfDoc.withText Tgood]

deriving instance DecidableEq for Except

/-! Helper lemmas about digits and formatting. -/

theorem digitChar_toNat {d : Nat} (h : d < 10) : (Nat.digitChar d).toNat = 48 + d := by
  interval_cases d <;> rfl

theorem digitChar_isDigit {d : Nat} (h : d < 10) : (Nat.digitChar d).isDigit = true := by
  interval_cases d <;> rfl

theorem fixedDigits_length (w n : Nat) : (fixedDigits w n).length = w := by
  induction w generalizing n with
  | zero => rfl
  | succ w ih => simp [fixedDigits, ih]

theorem fixedDigits_isDigit {w n : Nat} (h : n < 10 ^ w) :
    ∀ c ∈ fixedDigits w n, c.isDigit = true := by
  induction w generalizing n with
  | zero => simp [fixedDigits]
  | succ w ih =>
    intro c hc
    rw [pow_succ] at h
    simp only [fixedDigits, List.mem_cons] at hc
    rcases hc with rfl | hc
    · exact digitChar_isDigit (Nat.div_lt_of_lt_mul h)
    · exact ih (Nat.mod_lt _ (Nat.pow_pos (by omega))) c hc

theorem natDigitsF_ne_nil : ∀ f n : Nat, natDigitsF f n ≠ [] := by
  intro f
  cases f with
  | zero => intro n; simp [natDigitsF]
  | succ f =>
    intro n
    unfold natDigitsF
    split <;> simp

theorem natDigits_ne_nil (n : Nat) : natDigits n ≠ [] := natDigitsF_ne_nil n n

theorem natDigitsF_isDigit :
    ∀ f n : Nat, n < 10 ^ (f + 1) → ∀ c ∈ natDigitsF f n, c.isDigit = true := by
  intro f
  induction f with
  | zero =>
    intro n hn c hc
    simp only [natDigitsF, List.mem_singleton] at hc
    subst hc
    exact digitChar_isDigit (by simpa using hn)
  | succ f ih =>
    intro n hn c hc
    unfold natDigitsF at hc
    split at hc
    · simp only [List.mem_singleton] at hc
      subst hc
      exact digitChar_isDigit (by omega)
    · simp only [List.mem_append, List.mem_singleton] at hc
      rcases hc with hc | rfl
      · refine ih (n / 10) ?_ c hc
        rw [pow_succ] at hn
        exact Nat.div_lt_of_lt_mul (by omega)
      · exact digitChar_isDigit (by omega)

theorem natDigits_isDigit (n : Nat) : ∀ c ∈ natDigits n, c.isDigit = true := by
  refine natDigitsF_isDigit n n ?_
  calc n < 10 ^ n := Nat.lt_pow_self (by omega) n
  _ ≤ 10 ^ (n + 1) := Nat.pow_le_pow_right (by omega) (by omega)

/-! Lexicographic string comparison: basic order properties and its
agreement with numeric order on zero-padded digit blocks. -/

theorem lexLe_refl (l : List Char) : lexLe l l = true := by
  induction l with
  | nil => rfl
  | cons c cs ih => simp [lexLe, ih]

theorem lexLe_cons (x y : Char) (xs ys : List Char) :
    lexLe (x :: xs) (y :: ys) =
      if x.toNat < y.toNat then true
      else if y.toNat < x.toNat then false
      else lexLe xs ys := rfl

theorem lexLe_trans :
    ∀ a b c : List Char, lexLe a b = true → lexLe b c = true → lexLe a c = true := by
  intro a
  induction a with
  | nil => intro b c _ _; rfl
  | cons x xs ih =>
    intro b c hab hbc
    cases b with
    | nil => simp [lexLe] at hab
    | cons y ys =>
      cases c with
      | nil => simp [lexLe] at hbc
      | cons z zs =>
        rcases Nat.lt_trichotomy x.toNat y.toNat with h1 | h1 | h1
        · rcases Nat.lt_trichotomy y.toNat z.toNat with h2 | h2 | h2
          · rw [lexLe_cons, if_pos (by omega)]
          · rw [lexLe_cons, if_pos (by omega)]
          · rw [lexLe_cons, if_neg (by omega), if_pos (by omega)] at hbc
            exact absurd hbc (by simp)
        · rcases Nat.lt_trichotomy y.toNat z.toNat with h2 | h2 | h2
          · rw [lexLe_cons, if_pos (by omega)]
          · rw [lexLe_cons, if_neg (by omega), if_neg (by omega)] at hab hbc ⊢
            exact ih ys zs hab hbc
          · rw [lexLe_cons, if_neg (by omega), if_pos (by omega)] at hbc
            exact absurd hbc (by simp)
        · rw [lexLe_cons, if_neg (by omega), if_pos (by omega)] at hab
          exact absurd hab (by simp)

theorem lexLe_total (a b : List Char) : lexLe a b = true ∨ lexLe b a = true := by
  induction a generalizing b with
  | nil => left; rfl
  | cons x xs ih =>
    cases b with
    | nil => right; rfl
    | cons y ys =>
      simp only [lexLe]
      rcases Nat.lt_trichotomy x.toNat y.toNat with h | h | h
      · left; rw [if_pos h]
      · rw [h]
        simp only [Nat.lt_irrefl, if_neg, if_false]
        rcases ih ys with h2 | h2
        · left; exact h2
        · right; exact h2
      · right; rw [if_pos h]

theorem lexLe_fixedDigits {w a b : Nat} (r1 r2 : List Char)
    (ha : a < 10 ^ w) (hb : b < 10 ^ w) :
    lexLe (fixedDigits w a ++ r1) (fixedDigits w b ++ r2) =
      (if a < b then true else if b < a then false else lexLe r1 r2) := by
  induction w generalizing a b with
  | zero =>
    have haz : a = 0 := by simpa using ha
    have hbz : b = 0 := by simpa using hb
    subst haz; subst hbz
    simp [fixedDigits]
  | succ w ih =>
    rw [pow_succ] at ha hb
    have hda : a / 10 ^ w < 10 := Nat.div_lt_of_lt_mul ha
    have hdb : b / 10 ^ w < 10 := Nat.div_lt_of_lt_mul hb
    have hma : a % 10 ^ w < 10 ^ w := Nat.mod_lt _ (Nat.pow_pos (by omega))
    have hmb : b % 10 ^ w < 10 ^ w := Nat.mod_lt _ (Nat.pow_pos (by omega))
    have hea := Nat.div_add_mod a (10 ^ w)
    have heb := Nat.div_add_mod b (10 ^ w)
    simp only [fixedDigits, List.cons_append, lexLe_cons,
      digitChar_toNat hda, digitChar_toNat hdb]
    rcases Nat.lt_trichotomy (a / 10 ^ w) (b / 10 ^ w) with h | h | h
    · have hab : a < b := Nat.lt_of_div_lt_div h
      rw [if_pos (by omega), if_pos hab]
    · rw [if_neg (by omega), if_neg (by omega), ih hma hmb]
      rw [← h] at heb
      have : a < b ↔ a % 10 ^ w < b % 10 ^ w := by omega
      rcases Nat.lt_trichotomy (a % 10 ^ w) (b % 10 ^ w) with h2 | h2 | h2
      · rw [if_pos h2, if_pos (by omega)]
      · have : ¬ a < b := by omega
        have h3 : ¬ b < a := by omega
        rw [if_neg (by omega), if_neg (by omega), if_neg this, if_neg h3]
      · rw [if_neg (by omega), if_pos h2, if_neg (by omega), if_pos (by omega)]
    · have hba : b < a := Nat.lt_of_div_lt_div h
      rw [if_neg (by omega), if_pos (by omega), if_neg (by omega), if_pos hba]

theorem fmtDate_data (dt : Date) :
    (fmtDate dt).data =
      fixedDigits 4 dt.year ++ ('/' :: (fixedDigits 2 dt.month
        ++ ('/' :: fixedDigits 2 dt.day))) := rfl

theorem lexLe_fmtDate {d1 d2 : Date}
    (h1y : d1.year < 10000) (h2y : d2.year < 10000)
    (h1m : d1.month < 100) (h2m : d2.month < 100)
    (h1d : d1.day < 100) (h2d : d2.day < 100) :
    (lexLe (fmtDate d1).data (fmtDate d2).data = true) ↔ dateLe d1 d2 := by
  have p4 : (10 : ℕ) ^ 4 = 10000 := by norm_num
  have p2 : (10 : ℕ) ^ 2 = 100 := by norm_num
  have hdays := lexLe_fixedDigits ([] : List Char) ([] : List Char)
    (h1d.trans_eq p2.symm) (h2d.trans_eq p2.symm)
  rw [List.append_nil, List.append_nil] at hdays
  rw [fmtDate_data, fmtDate_data,
    lexLe_fixedDigits _ _ (h1y.trans_eq p4.symm) (h2y.trans_eq p4.symm)]
  rcases Nat.lt_trichotomy d1.year d2.year with h | h | h
  · rw [if_pos h]
    simp [dateLe, h]
  · rw [if_neg (by omega), if_neg (by omega), lexLe_cons,
      if_neg (by omega), if_neg (by omega),
      lexLe_fixedDigits _ _ (h1m.trans_eq p2.symm) (h2m.trans_eq p2.symm)]
    rcases Nat.lt_trichotomy d1.month d2.month with h2 | h2 | h2
    · rw [if_pos h2]
      simp [dateLe]
      omega
    · rw [if_neg (by omega), if_neg (by omega), lexLe_cons,
        if_neg (by omega), if_neg (by omega), hdays]
      rcases Nat.lt_trichotomy d1.day d2.day with h3 | h3 | h3
      · rw [if_pos h3]
        simp [dateLe]
        omega
      · rw [if_neg (by omega), if_neg (by omega)]
        simp [dateLe, lexLe]
        omega
      · rw [if_neg (by omega), if_pos h3]
        simp [dateLe]
        omega
    · rw [if_neg (by omega), if_pos h2]
      simp [dateLe]
      omega
  · rw [if_neg (by omega), if_pos h]
    simp [dateLe]
    omega

/-! Structural facts about the matching primitives, used to derive shape
invariants of captured groups. -/

theorem takeCount_shape {p : Char → Bool} :
    ∀ {n : Nat} {cs ds r : List Char}, takeCount p n cs = some (ds, r) →
      ds.length = n ∧ (∀ c ∈ ds, p c = true) ∧ cs = ds ++ r := by
  intro n
  induction n with
  | zero =>
    intro cs ds r h
    simp only [takeCount, Option.some.injEq, Prod.mk.injEq] at h
    obtain ⟨rfl, rfl⟩ := h
    simp
  | succ n ih =>
    intro cs ds r h
    cases cs with
    | nil => simp [takeCount] at h
    | cons c cs =>
      simp only [takeCount] at h
      split at h
      · rename_i hp
        cases htc : takeCount p n cs with
        | none => rw [htc] at h; simp at h
        | some v =>
          obtain ⟨ds0, r0⟩ := v
          rw [htc] at h
          simp only [Option.some.injEq, Prod.mk.injEq] at h
          obtain ⟨rfl, rfl⟩ := h
          obtain ⟨hlen, hall, hsplit⟩ := ih htc
          refine ⟨by simp [hlen], ?_, by simp [hsplit]⟩
          intro x hx
          rcases List.mem_cons.mp hx with rfl | hx2
          · exact hp
          · exact hall x hx2
      · simp at h

theorem lit_shape :
    ∀ {l cs r : List Char}, lit l cs = some r → cs = l ++ r := by
  intro l
  induction l with
  | nil =>
    intro cs r h
    simp only [lit, Option.some.injEq] at h
    simp [h]
  | cons x xs ih =>
    intro cs r h
    cases cs with
    | nil => simp [lit] at h
    | cons c cs =>
      simp only [lit] at h
      split at h
      · rename_i hc
        subst hc
        simp [ih h]
      · simp at h

theorem optAnyThen_exists {k : List Char → Option (List Char)} {cs g : List Char}
    (h : optAnyThen k cs = some g) : ∃ r, k r = some g := by
  cases cs with
  | nil => exact ⟨[], h⟩
  | cons c cs =>
    simp only [optAnyThen] at h
    split at h
    · exact ⟨c :: cs, h⟩
    · cases hk : k cs with
      | some g2 => rw [hk] at h; exact ⟨cs, by rw [hk, h.symm]⟩
      | none => rw [hk] at h; exact ⟨c :: cs, h⟩

theorem searchLines_exists {p : List Char → Option (List Char)} :
    ∀ {lines : List (List Char)} {g : List Char},
      searchLines p lines = some g → ∃ cs, p cs = some g := by
  intro lines
  induction lines with
  | nil => intro g h; simp [searchLines] at h
  | cons line rest ih =>
    intro g h
    simp only [searchLines] at h
    cases hl : lastMatchInLine p line with
    | some g2 =>
      rw [hl] at h
      obtain rfl : g2 = g := by simpa using h
      unfold lastMatchInLine at hl
      have hmem : g2 ∈ (List.range (line.length + 1)).filterMap (fun i => p (line.drop i)) :=
        List.mem_of_mem_getLast? (by rw [hl]; rfl)
      obtain ⟨i, _, hp⟩ := List.mem_filterMap.mp hmem
      exact ⟨line.drop i, hp⟩
    | none =>
      rw [hl] at h
      exact ih h

theorem reSearch_exists {p : List Char → Option (List Char)} {content : String}
    {g : List Char} (h : reSearch p content = some g) : ∃ cs, p cs = some g :=
  searchLines_exists h

/-! Facts about `pyStrip` and character classes. -/

theorem isDigit_not_space {c : Char} (h : c.isDigit = true) : isSpaceC c = false := by
  by_contra hs
  have hs2 : isSpaceC c = true := by
    cases h2 : isSpaceC c
    · exact absurd h2 hs
    · rfl
  simp only [isSpaceC, Bool.or_eq_true, decide_eq_true_eq] at hs2
  rcases hs2 with ((((rfl | rfl) | rfl) | rfl) | rfl) | rfl <;> simp [Char.isDigit] at h

theorem dropWhile_eq_self_of_head {l : List Char}
    (h : ∀ c, l.head? = some c → isSpaceC c = false) :
    l.dropWhile isSpaceC = l := by
  cases l with
  | nil => rfl
  | cons c cs =>
    have := h c rfl
    simp [List.dropWhile, this]

theorem pyStrip_eq_self_of_ends {a b : Char} {m : List Char}
    (ha : isSpaceC a = false) (hb : isSpaceC b = false) :
    pyStrip (a :: (m ++ [b])) = a :: (m ++ [b]) := by
  unfold pyStrip
  have h1 : List.dropWhile isSpaceC (a :: (m ++ [b])) = a :: (m ++ [b]) :=
    dropWhile_eq_self_of_head (by
      intro c hc
      obtain rfl : a = c := by simpa using hc
      exact ha)
  rw [h1]
  have hrev : (a :: (m ++ [b])).reverse = b :: (m.reverse ++ [a]) := by simp
  rw [hrev]
  have h2 : List.dropWhile isSpaceC (b :: (m.reverse ++ [a])) = b :: (m.reverse ++ [a]) :=
    dropWhile_eq_self_of_head (by
      intro c hc
      obtain rfl : b = c := by simpa using hc
      exact hb)
  rw [h2, ← hrev, List.reverse_reverse]

theorem pyStrip_eq_self_of_all {l : List Char}
    (h : ∀ c ∈ l, isSpaceC c = false) : pyStrip l = l := by
  unfold pyStrip
  have h1 : List.dropWhile isSpaceC l = l :=
    dropWhile_eq_self_of_head (fun c hc =>
      h c (List.mem_of_mem_head? (Option.mem_def.mpr hc)))
  rw [h1]
  have h2 : List.dropWhile isSpaceC l.reverse = l.reverse :=
    dropWhile_eq_self_of_head (fun c hc =>
      h c (by simpa using List.mem_of_mem_head? (Option.mem_def.mpr hc)))
  rw [h2, List.reverse_reverse]

theorem length_eq_four {α : Type} {l : List α} (h : l.length = 4) :
    ∃ a b c d, l = [a, b, c, d] := by
  cases l with
  | nil => simp at h
  | cons a t =>
    have ht : t.length = 3 := by simpa using h
    obtain ⟨b, c, d, rfl⟩ := List.length_eq_three.mp ht
    exact ⟨a, b, c, d, rfl⟩

/-! Shape of the award-id capture. -/

theorem grpAwardId_shape {cs g : List Char} (h : grpAwardId cs = some g) :
    ∃ ds, g = 'C' :: ds ∧ (∀ c ∈ ds, c.isDigit = true) ∧
      (ds.length = 6 ∨ ds.length = 7) := by
  unfold grpAwardId at h
  cases hl : lit ['C'] cs with
  | none => rw [hl] at h; simp at h
  | some r =>
    rw [hl] at h
    dsimp only at h
    cases h7 : takeCount Char.isDigit 7 r with
    | some v =>
      obtain ⟨ds, r2⟩ := v
      rw [h7] at h
      obtain ⟨hlen, hall, _⟩ := takeCount_shape h7
      obtain rfl : 'C' :: ds = g := by simpa using h
      exact ⟨ds, rfl, hall, Or.inr hlen⟩
    | none =>
      rw [h7] at h
      cases h6 : takeCount Char.isDigit 6 r with
      | none => rw [h6] at h; simp at h
      | some v =>
        obtain ⟨ds, r2⟩ := v
        rw [h6] at h
        obtain ⟨hlen, hall, _⟩ := takeCount_shape h6
        obtain rfl : 'C' :: ds = g := by simpa using h
        exact ⟨ds, rfl, hall, Or.inl hlen⟩

theorem RE_AWARD_ID_shape {cs g : List Char} (h : RE_AWARD_ID cs = some g) :
    ∃ ds, g = 'C' :: ds ∧ (∀ c ∈ ds, c.isDigit = true) ∧
      (ds.length = 6 ∨ ds.length = 7) := by
  unfold RE_AWARD_ID at h
  cases hl : lit "Award".data cs with
  | none => rw [hl] at h; simp at h
  | some r =>
    rw [hl] at h
    dsimp only at h
    obtain ⟨r2, hk⟩ := optAnyThen_exists h
    cases hl2 : lit "ID: ".data r2 with
    | none => rw [hl2] at hk; simp at hk
    | some r3 =>
      rw [hl2] at hk
      dsimp only at hk
      exact grpAwardId_shape hk

theorem awardId_isAwardId {content : String} {g : List Char}
    (h : reSearch RE_AWARD_ID content = some g) :
    isAwardId (String.mk (pyStrip g)) = true := by
  obtain ⟨cs, hp⟩ := reSearch_exists h
  obtain ⟨ds, rfl, hall, hlen⟩ := RE_AWARD_ID_shape hp
  have hns : ∀ c ∈ 'C' :: ds, isSpaceC c = false := by
    intro c hc
    rcases List.mem_cons.mp hc with rfl | hc
    · rfl
    · exact isDigit_not_space (hall c hc)
  rw [pyStrip_eq_self_of_all hns]
  show isAwardId (String.mk ('C' :: ds)) = true
  unfold isAwardId
  simp only
  rw [List.all_eq_true.mpr (by intro c hc; exact hall c (by simpa using hc))]
  rcases hlen with hl6 | hl7
  · simp [hl6]
  · simp [hl7]

/-! Shape of the vest-price capture. -/

theorem vestAny4_shape {pre r g : List Char} (h : vestAny4 pre r = some g) :
    ∃ x d4, g = pre ++ x :: d4 ∧ x ≠ '\n' ∧ d4.length = 4 ∧
      (∀ c ∈ d4, c.isDigit = true) := by
  unfold vestAny4 at h
  split at h
  · simp at h
  · rename_i x r2
    split at h
    · simp at h
    · rename_i hx
      cases h4 : takeCount Char.isDigit 4 r2 with
      | none => rw [h4] at h; simp at h
      | some v =>
        obtain ⟨d4, rr⟩ := v
        rw [h4] at h
        dsimp only at h
        obtain ⟨hlen, hall, _⟩ := takeCount_shape h4
        obtain rfl : pre ++ x :: d4 = g := by simpa using h
        exact ⟨x, d4, rfl, hx, hlen, hall⟩

theorem vestTail_shape {cs g : List Char} (h : vestTail cs = some g) :
    ∃ ds x d4, g = ds ++ x :: d4 ∧ (ds.length = 2 ∨ ds.length = 3) ∧
      (∀ c ∈ ds, c.isDigit = true) ∧ x ≠ '\n' ∧ d4.length = 4 ∧
      (∀ c ∈ d4, c.isDigit = true) := by
  unfold vestTail at h
  split at h
  · rename_i a r h3
    obtain ⟨hlen3, hall3, _⟩ := takeCount_shape h3
    split at h
    · rename_i g2 hva
      obtain rfl : g2 = g := by simpa using h
      obtain ⟨x, d4, rfl, hx, hlen4, hall4⟩ := vestAny4_shape hva
      exact ⟨a, x, d4, rfl, Or.inr hlen3, hall3, hx, hlen4, hall4⟩
    · split at h
      · rename_i b r2 h2
        obtain ⟨hlen2, hall2, _⟩ := takeCount_shape h2
        obtain ⟨x, d4, rfl, hx, hlen4, hall4⟩ := vestAny4_shape h
        exact ⟨b, x, d4, rfl, Or.inl hlen2, hall2, hx, hlen4, hall4⟩
      · simp at h
  · split at h
    · rename_i b r2 h2
      obtain ⟨hlen2, hall2, _⟩ := takeCount_shape h2
      obtain ⟨x, d4, rfl, hx, hlen4, hall4⟩ := vestAny4_shape h
      exact ⟨b, x, d4, rfl, Or.inl hlen2, hall2, hx, hlen4, hall4⟩
    · simp at h

theorem vestComma_shape {cs g : List Char} (h : vestComma cs = some g) :
    ∃ c1 ds x d4, g = c1 ++ (ds ++ x :: d4) ∧ (c1 = [] ∨ c1 = [',']) ∧
      (ds.length = 2 ∨ ds.length = 3) ∧ (∀ c ∈ ds, c.isDigit = true) ∧
      x ≠ '\n' ∧ d4.length = 4 ∧ (∀ c ∈ d4, c.isDigit = true) := by
  unfold vestComma at h
  split at h
  · rename_i r1
    split at h
    · rename_i g2 hvt
      obtain rfl : ',' :: g2 = g := by simpa using h
      obtain ⟨ds, x, d4, rfl, hlds, halld, hx, hlen4, hall4⟩ := vestTail_shape hvt
      exact ⟨[','], ds, x, d4, by simp, Or.inr rfl, hlds, halld, hx, hlen4, hall4⟩
    · obtain ⟨ds, x, d4, rfl, hlds, halld, hx, hlen4, hall4⟩ := vestTail_shape h
      exact ⟨[], ds, x, d4, by simp, Or.inl rfl, hlds, halld, hx, hlen4, hall4⟩
  · obtain ⟨ds, x, d4, rfl, hlds, halld, hx, hlen4, hall4⟩ := vestTail_shape h
    exact ⟨[], ds, x, d4, by simp, Or.inl rfl, hlds, halld, hx, hlen4, hall4⟩

theorem grpVestDigit_shape {cs g : List Char} (h : grpVestDigit cs = some g) :
    ∃ d1 c1 ds x d4, g = d1 ++ (c1 ++ (ds ++ x :: d4)) ∧
      d1.length ≤ 1 ∧ (∀ c ∈ d1, c.isDigit = true) ∧ (c1 = [] ∨ c1 = [',']) ∧
      (ds.length = 2 ∨ ds.length = 3) ∧ (∀ c ∈ ds, c.isDigit = true) ∧
      x ≠ '\n' ∧ d4.length = 4 ∧ (∀ c ∈ d4, c.isDigit = true) := by
  unfold grpVestDigit at h
  split at h
  · rename_i c r1
    split at h
    · rename_i hcd
      split at h
      · rename_i g2 hvc
        obtain rfl : c :: g2 = g := by simpa using h
        obtain ⟨c1, ds, x, d4, rfl, hc1, hlds, halld, hx, hlen4, hall4⟩ :=
          vestComma_shape hvc
        exact ⟨[c], c1, ds, x, d4, by simp, by simp,
          by intro e he; simp at he; subst he; exact hcd,
          hc1, hlds, halld, hx, hlen4, hall4⟩
      · obtain ⟨c1, ds, x, d4, rfl, hc1, hlds, halld, hx, hlen4, hall4⟩ :=
          vestComma_shape h
        exact ⟨[], c1, ds, x, d4, by simp, by simp, by simp,
          hc1, hlds, halld, hx, hlen4, hall4⟩
    · obtain ⟨c1, ds, x, d4, rfl, hc1, hlds, halld, hx, hlen4, hall4⟩ :=
        vestComma_shape h
      exact ⟨[], c1, ds, x, d4, by simp, by simp, by simp,
        hc1, hlds, halld, hx, hlen4, hall4⟩
  · obtain ⟨c1, ds, x, d4, rfl, hc1, hlds, halld, hx, hlen4, hall4⟩ :=
      vestComma_shape h
    exact ⟨[], c1, ds, x, d4, by simp, by simp, by simp,
      hc1, hlds, halld, hx, hlen4, hall4⟩

theorem grpVest_shape {cs g : List Char} (h : grpVest cs = some g) :
    ∃ d1 c1 ds x d4, g = '$' :: (d1 ++ (c1 ++ (ds ++ x :: d4))) ∧
      d1.length ≤ 1 ∧ (∀ c ∈ d1, c.isDigit = true) ∧ (c1 = [] ∨ c1 = [',']) ∧
      (ds.length = 2 ∨ ds.length = 3) ∧ (∀ c ∈ ds, c.isDigit = true) ∧
      x ≠ '\n' ∧ d4.length = 4 ∧ (∀ c ∈ d4, c.isDigit = true) := by
  unfold grpVest at h
  split at h
  · simp at h
  · rename_i r0 hl
    split at h
    · rename_i g2 hgd
      obtain rfl : '$' :: g2 = g := by simpa using h
      obtain ⟨d1, c1, ds, x, d4, rfl, hp⟩ := grpVestDigit_shape hgd
      exact ⟨d1, c1, ds, x, d4, rfl, hp⟩
    · simp at h

theorem RE_VEST_PRICE_shape {cs g : List Char} (h : RE_VEST_PRICE cs = some g) :
    ∃ r, grpVest r = some g := by
  unfold RE_VEST_PRICE at h
  split at h
  · simp at h
  · rename_i r hl
    obtain ⟨r2, hk⟩ := optAnyThen_exists h
    cases hl2 : lit "@".data r2 with
    | none => rw [hl2] at hk; simp at hk
    | some r3 =>
      rw [hl2] at hk
      dsimp only at hk
      obtain ⟨r4, hk2⟩ := optAnyThen_exists hk
      cases hl3 : lit "Vest: ".data r4 with
      | none => rw [hl3] at hk2; simp at hk2
      | some r5 =>
        rw [hl3] at hk2
        dsimp only at hk2
        exact ⟨r5, hk2⟩

theorem vestPrice_VestShape {content : String} {g : List Char}
    (h : reSearch RE_VEST_PRICE content = some g) :
    VestShape (String.mk (pyStrip g)) := by
  obtain ⟨cs, hp⟩ := reSearch_exists h
  obtain ⟨r, hg⟩ := RE_VEST_PRICE_shape hp
  obtain ⟨d1, c1, ds, x, d4, rfl, hd1, halld1, hc1, hlds, halld, hx, hlen4, hall4⟩ :=
    grpVest_shape hg
  obtain ⟨e1, e2, e3, e4, rfl⟩ := length_eq_four hlen4
  have hsplit : '$' :: (d1 ++ (c1 ++ (ds ++ x :: [e1, e2, e3, e4]))) =
      '$' :: ((d1 ++ (c1 ++ (ds ++ x :: [e1, e2, e3]))) ++ [e4]) := by
    simp
  rw [hsplit, pyStrip_eq_self_of_ends (by decide)
    (isDigit_not_space (hall4 e4 (by simp))), ← hsplit]
  exact ⟨d1, c1, ds, x, [e1, e2, e3, e4], by simp, hd1, halld1, hc1, hlds, halld,
    hx, hlen4, hall4⟩

/-! Facts about parsing and formatting of quantities and dates. -/

theorem takeWhile_append_stop {p : Char → Bool} :
    ∀ {l1 : List Char} {c0 : Char} {l2 : List Char},
      (∀ c ∈ l1, p c = true) → p c0 = false →
      (l1 ++ c0 :: l2).takeWhile p = l1 ∧ (l1 ++ c0 :: l2).dropWhile p = c0 :: l2 := by
  intro l1
  induction l1 with
  | nil =>
    intro c0 l2 _ hc0
    simp [List.takeWhile, List.dropWhile, hc0]
  | cons a t ih =>
    intro c0 l2 hall hc0
    have ha : p a = true := hall a (by simp)
    have h2 := @ih c0 l2 (fun c hc => hall c (by simp [hc])) hc0
    simp [List.takeWhile, List.dropWhile, ha, h2.1, h2.2]

theorem monthAbbrev_bounds {l : List Char} {m : Nat} (h : monthAbbrev l = some m) :
    1 ≤ m ∧ m ≤ 12 := by
  unfold monthAbbrev at h
  cases hf : MONTH_ABBREVS.find? (fun pr => pr.1 == l.map Char.toLower) with
  | none => rw [hf] at h; simp at h
  | some pr =>
    rw [hf] at h
    obtain rfl : pr.2 = m := by simpa using h
    have hmem := List.mem_of_find?_eq_some hf
    have : ∀ q ∈ MONTH_ABBREVS, 1 ≤ q.2 ∧ q.2 ≤ 12 := by decide
    exact this pr hmem

theorem daysInMonth_le_31 (y m : Nat) : daysInMonth y m ≤ 31 := by
  unfold daysInMonth
  split
  · split <;> omega
  · split <;> omega

theorem strptime_dmy_bounds {s : String} {dt : Date} (h : strptime_dmy s = some dt) :
    1 ≤ dt.year ∧ dt.year ≤ 9999 ∧ 1 ≤ dt.month ∧ dt.month ≤ 12 ∧
      1 ≤ dt.day ∧ dt.day ≤ 31 := by
  unfold strptime_dmy at h
  split at h
  · split at h
    · rename_i hm
      cases hma : monthAbbrev _ with
      | none => rw [hma] at h; simp at h
      | some m =>
        rw [hma] at h
        dsimp only at h
        split at h
        · rename_i hcond
          obtain rfl : Date.mk _ _ _ = dt := by simpa using h
          obtain ⟨hm1, hm2⟩ := monthAbbrev_bounds hma
          refine ⟨hcond.1, hcond.2.1, hm1, hm2, hcond.2.2.1, ?_⟩
          exact le_trans hcond.2.2.2 (daysInMonth_le_31 _ _)
        · simp at h
    · simp at h
  · simp at h

theorem strptime_ymd_bounds {s : String} {dt : Date} (h : strptime_ymd s = some dt) :
    1 ≤ dt.year ∧ dt.year ≤ 9999 ∧ 1 ≤ dt.month ∧ dt.month ≤ 12 ∧
      1 ≤ dt.day ∧ dt.day ≤ 31 := by
  unfold strptime_ymd at h
  split at h
  · split at h
    · dsimp only at h
      split at h
      · rename_i hcond
        obtain rfl : Date.mk _ _ _ = dt := by simpa using h
        refine ⟨hcond.1, hcond.2.1, hcond.2.2.1, hcond.2.2.2.1, hcond.2.2.2.2.1, ?_⟩
        exact le_trans hcond.2.2.2.2.2 (daysInMonth_le_31 _ _)
      · simp at h
    · simp at h
  · simp at h

theorem isCanonicalDate_fmtDate {dt : Date}
    (hy1 : 1 ≤ dt.year) (hy : dt.year ≤ 9999) (hm : dt.month ≤ 99) (hd : dt.day ≤ 99) :
    isCanonicalDate (fmtDate dt) = true := by
  have hy4 : dt.year < 10 ^ 4 := by norm_num; omega
  have hm2 : dt.month < 10 ^ 2 := by norm_num; omega
  have hd2 : dt.day < 10 ^ 2 := by norm_num; omega
  have hay := fixedDigits_isDigit hy4
  have ham := fixedDigits_isDigit hm2
  have had := fixedDigits_isDigit hd2
  obtain ⟨a1, a2, a3, a4, hae⟩ := length_eq_four (fixedDigits_length 4 dt.year)
  obtain ⟨b1, b2, hbe⟩ := List.length_eq_two.mp (fixedDigits_length 2 dt.month)
  obtain ⟨c1, c2, hce⟩ := List.length_eq_two.mp (fixedDigits_length 2 dt.day)
  rw [hae] at hay
  rw [hbe] at ham
  rw [hce] at had
  have : (fmtDate dt).data = [a1, a2, a3, a4, '/', b1, b2, '/', c1, c2] := by
    rw [fmtDate_data, hae, hbe, hce]
    simp
  unfold isCanonicalDate
  rw [this]
  simp only [Bool.and_eq_true]
  refine ⟨⟨⟨⟨⟨⟨⟨hay a1 (by simp), hay a2 (by simp)⟩, hay a3 (by simp)⟩,
    hay a4 (by simp)⟩, ham b1 (by simp)⟩, ham b2 (by simp)⟩,
    had c1 (by simp)⟩, had c2 (by simp)⟩

theorem fmt3_data (q : ℚ) :
    (fmt3 q).data =
      natDigits ((roundHalfEven (q * 1000)).toNat / 1000)
        ++ '.' :: fixedDigits 3 ((roundHalfEven (q * 1000)).toNat % 1000) := rfl

theorem isQty3_fmt3 (q : ℚ) : isQty3 (fmt3 q) = true := by
  have hm : (roundHalfEven (q * 1000)).toNat % 1000 < 10 ^ 3 := by
    have := Nat.mod_lt (roundHalfEven (q * 1000)).toNat (show 0 < 1000 by omega)
    norm_num
    omega
  obtain ⟨b1, b2, b3, hbe⟩ :=
    List.length_eq_three.mp (fixedDigits_length 3 ((roundHalfEven (q * 1000)).toNat % 1000))
  have hdig := fixedDigits_isDigit hm
  rw [hbe] at hdig
  have hrev : (fmt3 q).data.reverse =
      b3 :: b2 :: b1 :: '.' ::
        (natDigits ((roundHalfEven (q * 1000)).toNat / 1000)).reverse := by
    rw [fmt3_data, hbe]
    simp
  unfold isQty3
  rw [hrev]
  simp only [Bool.and_eq_true]
  refine ⟨⟨⟨⟨hdig b3 (by simp), hdig b2 (by simp)⟩, hdig b1 (by simp)⟩, ?_⟩, ?_⟩
  · simp [natDigits_ne_nil]
  · rw [List.all_eq_true]
    intro c hc
    exact natDigits_isDigit _ c (by simpa using hc)

theorem parseDecimal_fmt3_isSome (q : ℚ) :
    (parseDecimal (fmt3 q).data).isSome = true := by
  rw [fmt3_data]
  obtain ⟨htake, hdrop⟩ := @takeWhile_append_stop Char.isDigit
    (natDigits ((roundHalfEven (q * 1000)).toNat / 1000)) '.'
    (fixedDigits 3 ((roundHalfEven (q * 1000)).toNat % 1000))
    (natDigits_isDigit ((roundHalfEven (q * 1000)).toNat / 1000)) (by rfl)
  unfold parseDecimal
  rw [htake, hdrop]
  dsimp only
  rw [if_neg (by simpa using natDigits_ne_nil _)]
  have hall : (fixedDigits 3 ((roundHalfEven (q * 1000)).toNat % 1000)).all
      Char.isDigit = true := by
    rw [List.all_eq_true]
    intro c hc
    exact fixedDigits_isDigit (by
      have := Nat.mod_lt (roundHalfEven (q * 1000)).toNat (show 0 < 1000 by omega)
      norm_num
      omega) c hc
  simp [hall]

theorem parseDecimal_nonneg {l : List Char} {q : ℚ} (h : parseDecimal l = some q) :
    0 ≤ q := by
  unfold parseDecimal at h
  dsimp only at h
  split at h
  · simp at h
  · split at h
    · obtain rfl : ((digitsVal (l.takeWhile Char.isDigit) : ℚ)) = q := by simpa using h
      positivity
    · split at h
      · rename_i hnil fr heq hall2
        obtain rfl : ((digitsVal (l.takeWhile Char.isDigit) : ℚ)
            + (digitsVal fr : ℚ) / (10 : ℚ) ^ fr.length) = q := by simpa using h
        positivity
      · simp at h
    · simp at h

/-! Elimination facts for field extraction. -/

theorem extract_field_ok {p : List Char → Option (List Char)} {content fn v : String}
    (h : extract_field p content fn = Except.ok v) :
    ∃ g, reSearch p content = some g ∧ v = String.mk (pyStrip g) := by
  unfold extract_field at h
  split at h
  · simp at h
  · rename_i g hg
    exact ⟨g, hg, by simpa using h.symm⟩

theorem extract_field_error {p : List Char → Option (List Char)} {content fn : String}
    {e : ParseErr} (h : extract_field p content fn = Except.error e) :
    reSearch p content = none ∧ e = ParseErr.missing fn := by
  unfold extract_field at h
  split at h
  · rename_i hg
    exact ⟨hg, by simpa using h.symm⟩
  · simp at h

theorem extractAll_ok {content : String} {f : ExtractedFields}
    (h : extractAll content = Except.ok f) :
    extract_field RE_AWARD_DATE content "Award Date" = Except.ok f.raw_award_date ∧
    extract_field RE_AWARD_ID content "Award ID" = Except.ok f.award_id ∧
    extract_field RE_RELEASE_DATE content "Release Date" = Except.ok f.raw_release_date ∧
    extract_field RE_VEST_PRICE content "Vest Price" = Except.ok f.vest_price ∧
    extract_field RE_QTY_RELEASED content "Qty Released" = Except.ok f.raw_qty_released ∧
    extract_field RE_QTY_NET content "Qty Net" = Except.ok f.raw_qty_net := by
  unfold extractAll at h
  split at h
  · simp at h
  · rename_i v1 h1
    split at h
    · simp at h
    · rename_i v2 h2
      split at h
      · simp at h
      · rename_i v3 h3
        split at h
        · simp at h
        · rename_i v4 h4
          split at h
          · simp at h
          · rename_i v5 h5
            split at h
            · simp at h
            · rename_i v6 h6
              obtain rfl : ExtractedFields.mk v1 v2 v3 v4 v5 v6 = f := by
                simpa using h
              exact ⟨h1, h2, h3, h4, h5, h6⟩

theorem parsePdfCore_ok {content : String} {r : StockData}
    (h : parsePdfCore (PdfDoc.withText content) = Except.ok r) :
    ∃ f award_dt release_dt q1 q2,
      extractAll content = Except.ok f ∧
      strptime_dmy f.raw_award_date = some award_dt ∧
      strptime_dmy f.raw_release_date = some release_dt ∧
      parseDecimal f.raw_qty_released.data = some q1 ∧
      parseDecimal f.raw_qty_net.data = some q2 ∧
      r = { award_date := fmtDate award_dt
            award_id := f.award_id
            release_date := fmtDate release_dt
            vest_price := f.vest_price
            quantity_released :=
              fmt3 (if Date.before release_dt SPLIT_DATE then q1 * SPLIT_FACTOR else q1)
            quantity_net :=
              fmt3 (if Date.before release_dt SPLIT_DATE then q2 * SPLIT_FACTOR else q2) } := by
  unfold parsePdfCore at h
  dsimp only at h
  split at h
  · simp at h
  · rename_i f hf
    split at h
    · simp at h
    · rename_i award_dt had
      split at h
      · simp at h
      · rename_i release_dt hrd
        split at h
        · simp at h
        · rename_i q1 hq1
          split at h
          · simp at h
          · rename_i q2 hq2
            refine ⟨f, award_dt, release_dt, q1, q2, hf, had, hrd, hq1, hq2, ?_⟩
            simpa using h.symm

/-! Claim theorems. -/

/-- C1: for every successfully normalized record, if the parsed release
date is strictly earlier than the fixed split date `2022-07-15` then both
`quantity_released` and `quantity_net` equal the raw parsed quantities
multiplied by the fixed split factor `20.0`, and otherwise both equal the
raw quantities unchanged; a record with raw release date `15-Jul-2022`
(exactly the split boundary) is NOT adjusted. -/
theorem claim_C1 (content : String) (f : ExtractedFields) (release_dt : Date)
    (q1 q2 : ℚ) (r : StockData)
    (hex : extractAll content = Except.ok f)
    (hdt : strptime_dmy f.raw_release_date = some release_dt)
    (hq1 : parseDecimal f.raw_qty_released.data = some q1)
    (hq2 : parseDecimal f.raw_qty_net.data = some q2)
    (hr : parsePdfCore (PdfDoc.withText content) = Except.ok r) :
    (Date.before release_dt SPLIT_DATE = true →
      r.quantity_released = fmt3 (q1 * SPLIT_FACTOR) ∧
      r.quantity_net = fmt3 (q2 * SPLIT_FACTOR)) ∧
    (Date.before release_dt SPLIT_DATE = false →
      r.quantity_released = fmt3 q1 ∧ r.quantity_net = fmt3 q2) ∧
    (f.raw_release_date = "15-Jul-2022" →
      release_dt = ⟨2022, 7, 15⟩ ∧
      r.quantity_released = fmt3 q1 ∧ r.quantity_net = fmt3 q2) := by
  obtain ⟨f2, adt, rdt, p1, p2, hf2, _, hrd2, hp1, hp2, rfl⟩ := parsePdfCore_ok hr
  obtain rfl : f = f2 := by
    have := hex.symm.trans hf2
    simpa using this
  obtain rfl : release_dt = rdt := by
    have := hdt.symm.trans hrd2
    simpa using this
  obtain rfl : q1 = p1 := by
    have := hq1.symm.trans hp1
    simpa using this
  obtain rfl : q2 = p2 := by
    have := hq2.symm.trans hp2
    simpa using this
  refine ⟨fun hb => ?_, fun hb => ?_, fun h15 => ?_⟩
  · simp [hb]
  · simp [hb]
  · rw [h15] at hrd2
    have hval : strptime_dmy "15-Jul-2022" = some ⟨2022, 7, 15⟩ := by decide
    obtain rfl : release_dt = ⟨2022, 7, 15⟩ := by
      have h2 := hrd2.symm.trans hval
      simpa using h2
    have hb : Date.before ⟨2022, 7, 15⟩ SPLIT_DATE = false := by decide
    refine ⟨rfl, ?_, ?_⟩ <;> simp [hb]

/-- Witness for C1 at the concrete boundary document `Tgood`. -/
theorem claim_C1_witness :
    (Date.before ⟨2022, 7, 15⟩ SPLIT_DATE = true →
      (StockData.mk "2021/01/05" "C123456" "2022/07/15" "$1,234.5678"
        "10.000" "5.000").quantity_released = fmt3 (10 * SPLIT_FACTOR) ∧
      (StockData.mk "2021/01/05" "C123456" "2022/07/15" "$1,234.5678"
        "10.000" "5.000").quantity_net = fmt3 (5 * SPLIT_FACTOR)) ∧
    (Date.before ⟨2022, 7, 15⟩ SPLIT_DATE = false →
      (StockData.mk "2021/01/05" "C123456" "2022/07/15" "$1,234.5678"
        "10.000" "5.000").quantity_released = fmt3 10 ∧
      (StockData.mk "2021/01/05" "C123456" "2022/07/15" "$1,234.5678"
        "10.000" "5.000").quantity_net = fmt3 5) ∧
    ((ExtractedFields.mk "05-Jan-2021" "C123456" "15-Jul-2022" "$1,234.5678"
        "10.0000" "5.0000").raw_release_date = "15-Jul-2022" →
      (⟨2022, 7, 15⟩ : Date) = ⟨2022, 7, 15⟩ ∧
      (StockData.mk "2021/01/05" "C123456" "2022/07/15" "$1,234.5678"
        "10.000" "5.000").quantity_released = fmt3 10 ∧
      (StockData.mk "2021/01/05" "C123456" "2022/07/15" "$1,234.5678"
        "10.000" "5.000").quantity_net = fmt3 5) :=
  claim_C1 Tgood
    (ExtractedFields.mk "05-Jan-2021" "C123456" "15-Jul-2022" "$1,234.5678"
      "10.0000" "5.0000")
    ⟨2022, 7, 15⟩ 10 5
    (StockData.mk "2021/01/05" "C123456" "2022/07/15" "$1,234.5678"
      "10.000" "5.000")
    (by decide) (by decide)
    (by with_unfolding_all decide) (by with_unfolding_all decide)
    (by with_unfolding_all decide)

/-- C2: field extraction either returns all six trimmed field values or
fails with a single error naming exactly the first missing field in the
fixed check order (Award Date, Award ID, Release Date, Vest Price,
Qty Released, Qty Net), exposing no partial field set; removing any single
label from the well-formed text `Tgood` makes extraction fail naming
exactly that field. -/
theorem claim_C2 :
    (∀ content : String,
      (∃ v, extractAll content = Except.ok v) ∨
      (∃ i, i < 6 ∧
        extractAll content = Except.error (ParseErr.missing (nthFieldName i)) ∧
        nthFieldSearch i content = none ∧
        ∀ j, j < i → nthFieldSearch j content ≠ none)) ∧
    extractAll Tgood = Except.ok (ExtractedFields.mk "05-Jan-2021" "C123456"
      "15-Jul-2022" "$1,234.5678" "10.0000" "5.0000") ∧
    extractAll T_no_award_date = Except.error (ParseErr.missing "Award Date") ∧
    extractAll T_no_award_id = Except.error (ParseErr.missing "Award ID") ∧
    extractAll T_no_release_date = Except.error (ParseErr.missing "Release Date") ∧
    extractAll T_no_vest_price = Except.error (ParseErr.missing "Vest Price") ∧
    extractAll T_no_qty_released = Except.error (ParseErr.missing "Qty Released") ∧
    extractAll T_no_qty_net = Except.error (ParseErr.missing "Qty Net") := by
  refine ⟨?_, by decide, by decide, by decide, by decide, by decide, by decide, by decide⟩
  intro content
  have E : ∀ (p : List Char → Option (List Char)) (n : String),
      reSearch p content = none →
      extract_field p content n = Except.error (ParseErr.missing n) := by
    intro p n h
    unfold extract_field
    rw [h]
  have O : ∀ (p : List Char → Option (List Char)) (n : String) (g : List Char),
      reSearch p content = some g →
      extract_field p content n = Except.ok (String.mk (pyStrip g)) := by
    intro p n g h
    unfold extract_field
    rw [h]
  cases h0 : reSearch RE_AWARD_DATE content with
  | none =>
    right
    refine ⟨0, by omega, ?_, h0, by omega⟩
    unfold extractAll
    rw [E _ _ h0]
    rfl
  | some g0 =>
    have e0 := O RE_AWARD_DATE "Award Date" g0 h0
    cases h1 : reSearch RE_AWARD_ID content with
    | none =>
      right
      refine ⟨1, by omega, ?_, h1, ?_⟩
      · unfold extractAll
        rw [e0, E _ _ h1]
        rfl
      · intro j hj
        interval_cases j
        simp [nthFieldSearch, h0]
    | some g1 =>
      have e1 := O RE_AWARD_ID "Award ID" g1 h1
      cases h2 : reSearch RE_RELEASE_DATE content with
      | none =>
        right
        refine ⟨2, by omega, ?_, h2, ?_⟩
        · unfold extractAll
          rw [e0, e1, E _ _ h2]
          rfl
        · intro j hj
          interval_cases j
          · simp [nthFieldSearch, h0]
          · simp [nthFieldSearch, h1]
      | some g2 =>
        have e2 := O RE_RELEASE_DATE "Release Date" g2 h2
        cases h3 : reSearch RE_VEST_PRICE content with
        | none =>
          right
          refine ⟨3, by omega, ?_, h3, ?_⟩
          · unfold extractAll
            rw [e0, e1, e2, E _ _ h3]
            rfl
          · intro j hj
            interval_cases j
            · simp [nthFieldSearch, h0]
            · simp [nthFieldSearch, h1]
            · simp [nthFieldSearch, h2]
        | some g3 =>
          have e3 := O RE_VEST_PRICE "Vest Price" g3 h3
          cases h4 : reSearch RE_QTY_RELEASED content with
          | none =>
            right
            refine ⟨4, by omega, ?_, h4, ?_⟩
            · unfold extractAll
              rw [e0, e1, e2, e3, E _ _ h4]
              rfl
            · intro j hj
              interval_cases j
              · simp [nthFieldSearch, h0]
              · simp [nthFieldSearch, h1]
              · simp [nthFieldSearch, h2]
              · simp [nthFieldSearch, h3]
          | some g4 =>
            have e4 := O RE_QTY_RELEASED "Qty Released" g4 h4
            cases h5 : reSearch RE_QTY_NET content with
            | none =>
              right
              refine ⟨5, by omega, ?_, h5, ?_⟩
              · unfold extractAll
                rw [e0, e1, e2, e3, e4, E _ _ h5]
                rfl
              · intro j hj
                interval_cases j
                · simp [nthFieldSearch, h0]
                · simp [nthFieldSearch, h1]
                · simp [nthFieldSearch, h2]
                · simp [nthFieldSearch, h3]
                · simp [nthFieldSearch, h4]
            | some g5 =>
              have e5 := O RE_QTY_NET "Qty Net" g5 h5
              left
              refine ⟨ExtractedFields.mk (String.mk (pyStrip g0))
                (String.mk (pyStrip g1)) (String.mk (pyStrip g2))
                (String.mk (pyStrip g3)) (String.mk (pyStrip g4))
                (String.mk (pyStrip g5)), ?_⟩
              unfold extractAll
              rw [e0, e1, e2, e3, e4, e5]

/-- C3: the records rendered to the CSV table are sorted ascending by
`release_date` by plain string comparison, the sorted list is a
permutation of the input, string comparison on canonical zero-padded
`YYYY/MM/DD` strings coincides with chronological order, and the three
example records with release dates 2023/05/10, 2021/01/01, 2022/12/31 are
listed in chronological order. -/
theorem claim_C3 :
    (∀ rs : List StockData,
      List.Pairwise (fun a b => recLe a b = true) (sortRecords rs)) ∧
    (∀ rs : List StockData, (sortRecords rs).Perm rs) ∧
    (∀ d1 d2 : Date, d1.year < 10000 → d2.year < 10000 →
      d1.month < 100 → d2.month < 100 → d1.day < 100 → d2.day < 100 →
      (lexLe (fmtDate d1).data (fmtDate d2).data = true ↔ dateLe d1 d2)) ∧
    sortRecords
      [StockData.mk "2020/01/05" "C111111" "2023/05/10" "$1.2345" "1.000" "1.000",
       StockData.mk "2020/01/05" "C222222" "2021/01/01" "$1.2345" "2.000" "2.000",
       StockData.mk "2020/01/05" "C333333" "2022/12/31" "$1.2345" "3.000" "3.000"] =
      [StockData.mk "2020/01/05" "C222222" "2021/01/01" "$1.2345" "2.000" "2.000",
       StockData.mk "2020/01/05" "C333333" "2022/12/31" "$1.2345" "3.000" "3.000",
       StockData.mk "2020/01/05" "C111111" "2023/05/10" "$1.2345" "1.000" "1.000"] := by
  have htrans : ∀ a b c : StockData,
      recLe a b = true → recLe b c = true → recLe a c = true :=
    fun a b c hab hbc => lexLe_trans _ _ _ hab hbc
  have htotal2 : ∀ a b : StockData, recLe a b = true ∨ recLe b a = true := by
    intro a b
    rcases lexLe_total a.release_date.data b.release_date.data with h | h
    · exact Or.inl h
    · exact Or.inr h
  haveI : IsTotal StockData (fun a b => recLe a b = true) := ⟨htotal2⟩
  haveI : IsTrans StockData (fun a b => recLe a b = true) :=
    ⟨fun a b c => htrans a b c⟩
  refine ⟨?_, ?_, ?_, by decide⟩
  · intro rs
    exact List.sorted_insertionSort _ rs
  · intro rs
    exact List.perm_insertionSort _ rs
  · intro d1 d2 h1y h2y h1m h2m h1d h2d
    exact lexLe_fmtDate h1y h2y h1m h2m h1d h2d

/-- Witness for C3: the order correspondence applied at two concrete
canonical dates. -/
theorem claim_C3_witness :
    lexLe (fmtDate ⟨2021, 1, 1⟩).data (fmtDate ⟨2023, 5, 10⟩).data = true ↔
      dateLe ⟨2021, 1, 1⟩ ⟨2023, 5, 10⟩ :=
  claim_C3.2.2.1 ⟨2021, 1, 1⟩ ⟨2023, 5, 10⟩ (by decide) (by decide) (by decide)
    (by decide) (by decide) (by decide)

theorem runBatch_mem_quantity_net {docs : List PdfDoc} {r : StockData}
    (h : r ∈ runBatch docs) : ∃ q : ℚ, r.quantity_net = fmt3 q := by
  unfold runBatch at h
  obtain ⟨doc, _, hd⟩ := List.mem_filterMap.mp h
  unfold parse_pdf at hd
  cases hc : parsePdfCore doc with
  | error e => rw [hc] at hd; simp [Except.toOption] at hd
  | ok r2 =>
    rw [hc] at hd
    obtain rfl : r2 = r := by simpa [Except.toOption] using hd
    cases doc with
    | unreadable => simp [parsePdfCore] at hc
    | noPages => simp [parsePdfCore] at hc
    | withText content =>
      obtain ⟨f, adt, rdt, q1, q2, _, _, _, _, _, rfl⟩ := parsePdfCore_ok hc
      exact ⟨_, rfl⟩

theorem mapM_eq_some_of_isSome {g : StockData → Option ℚ} :
    ∀ {rs : List StockData}, (∀ r ∈ rs, (g r).isSome = true) →
      rs.mapM g = some (rs.map (fun r => (g r).getD 0)) := by
  intro rs
  rw [← List.mapM'_eq_mapM]
  induction rs with
  | nil => intro _; rfl
  | cons a t ih =>
    intro h
    obtain ⟨qa, hqa⟩ := Option.isSome_iff_exists.mp (h a (by simp))
    have ht := ih (fun r hr => h r (by simp [hr]))
    simp [List.mapM', hqa, ht]

theorem mapM_eq_none_of_none {g : StockData → Option ℚ} :
    ∀ {rs : List StockData} {r0 : StockData}, r0 ∈ rs → g r0 = none →
      rs.mapM g = none := by
  intro rs
  rw [← List.mapM'_eq_mapM]
  induction rs with
  | nil => intro r0 h0 _; simp at h0
  | cons a t ih =>
    intro r0 h0 hg
    rcases List.mem_cons.mp h0 with rfl | h0t
    · simp [List.mapM', hg]
    · simp only [List.mapM']
      cases hga : g a with
      | none => rfl
      | some qa =>
        rw [ih h0t hg]
        rfl

/-- C4: the reported total equals the sum over all collected records of
the record's `quantity_net` string parsed back to a number; the total is
always defined on batch output, is invariant under the (unspecified)
completion order, and the end-to-end three-document example totals
`63.000`. -/
theorem claim_C4 :
    (∀ docs : List PdfDoc,
      totalShares (runBatch docs) =
        some (((runBatch docs).map
          (fun r => (parseDecimal r.quantity_net.data).getD 0)).sum)) ∧
    (∀ rs1 rs2 : List StockData, rs1.Perm rs2 →
      totalShares rs1 = totalShares rs2) ∧
    mainRun exampleDocs false = some ((3, "63.000"), none) := by
  refine ⟨?_, ?_, by with_unfolding_all decide⟩
  · intro docs
    have hall : ∀ r ∈ runBatch docs,
        (parseDecimal r.quantity_net.data).isSome = true := by
      intro r hr
      obtain ⟨q, hq⟩ := runBatch_mem_quantity_net hr
      rw [hq]
      exact parseDecimal_fmt3_isSome q
    unfold totalShares
    rw [mapM_eq_some_of_isSome hall]
    rfl
  · intro rs1 rs2 hperm
    by_cases hall : ∀ r ∈ rs1, (parseDecimal r.quantity_net.data).isSome = true
    · have hall2 : ∀ r ∈ rs2, (parseDecimal r.quantity_net.data).isSome = true :=
        fun r hr => hall r (hperm.mem_iff.mpr hr)
      unfold totalShares
      rw [mapM_eq_some_of_isSome hall, mapM_eq_some_of_isSome hall2]
      have := (hperm.map (fun r => (parseDecimal r.quantity_net.data).getD 0)).sum_eq
      simpa using this
    · push_neg at hall
      obtain ⟨r0, hr0, hnone⟩ := hall
      have hg : parseDecimal r0.quantity_net.data = none := by
        cases hx : parseDecimal r0.quantity_net.data with
        | none => rfl
        | some q => rw [hx] at hnone; simp at hnone
      unfold totalShares
      rw [mapM_eq_none_of_none hr0 hg,
        mapM_eq_none_of_none (hperm.mem_iff.mp hr0) hg]

/-- Witness for C4: order invariance applied at a concrete permutation. -/
theorem claim_C4_witness :
    totalShares
      [StockData.mk "2020/01/05" "C111111" "2021/01/01" "$1.2345" "1.000" "20.000",
       StockData.mk "2020/01/05" "C222222" "2022/02/02" "$1.2345" "2.000" "3.000"] =
    totalShares
      [StockData.mk "2020/01/05" "C222222" "2022/02/02" "$1.2345" "2.000" "3.000",
       StockData.mk "2020/01/05" "C111111" "2021/01/01" "$1.2345" "1.000" "20.000"] :=
  claim_C4.2.1 _ _ (List.Perm.swap _ _ _)

theorem filterMap_length_eq_filter_isSome {α β : Type} (f : α → Option β) :
    ∀ l : List α, (l.filterMap f).length = (l.filter (fun a => (f a).isSome)).length := by
  intro l
  induction l with
  | nil => rfl
  | cons a t ih =>
    cases hf : f a with
    | none => simp [List.filterMap_cons, List.filter_cons, hf, ih]
    | some b => simp [List.filterMap_cons, List.filter_cons, hf, ih]

/-- C5: every per-document failure is converted to an absent (`none`)
result inside the per-document function, so no failure aborts the batch:
the collected results are exactly the successfully parsed documents, and
the concrete batch of five documents whose third is unreadable yields
exactly four records while the run completes. -/
theorem claim_C5 :
    (∀ (doc : PdfDoc) (e : ParseErr),
      parsePdfCore doc = Except.error e → parse_pdf doc = none) ∧
    (∀ docs : List PdfDoc,
      (runBatch docs).length =
        (docs.filter (fun d => (parse_pdf d).isSome)).length) ∧
    batch5 = [PdfDoc.withText TpreA, PdfDoc.withText TpreB, PdfDoc.unreadable,
      PdfDoc.withText Tpost, PdfDoc.withText Tgood] ∧
    parse_pdf PdfDoc.unreadable = none ∧
    (runBatch batch5).length = 4 := by
  refine ⟨?_, ?_, rfl, rfl, by with_unfolding_all decide⟩
  · intro doc e h
    unfold parse_pdf
    rw [h]
    rfl
  · intro docs
    exact filterMap_length_eq_filter_isSome parse_pdf docs

/-- Witness for C5: the error-to-none conversion applied at the concrete
unreadable document. -/
theorem claim_C5_witness : parse_pdf PdfDoc.unreadable = none :=
  claim_C5.1 PdfDoc.unreadable ParseErr.readError rfl

theorem toOption_eq_some {ε α : Type} {e : Except ε α} {a : α}
    (h : e.toOption = some a) : e = Except.ok a := by
  cases e with
  | error x => simp [Except.toOption] at h
  | ok x => simpa [Except.toOption] using h

/-- C6: every record produced by a successful parse satisfies the data
model invariant: both dates are zero-padded `YYYY/MM/DD` strings, both
quantities are decimal strings with exactly three fractional digits, and
the award id is the letter C followed by six or seven digits. -/
theorem claim_C6 (doc : PdfDoc) (r : StockData) (h : parse_pdf doc = some r) :
    isCanonicalDate r.award_date = true ∧
    isCanonicalDate r.release_date = true ∧
    isQty3 r.quantity_released = true ∧
    isQty3 r.quantity_net = true ∧
    isAwardId r.award_id = true := by
  unfold parse_pdf at h
  have hok := toOption_eq_some h
  cases doc with
  | unreadable => simp [parsePdfCore] at hok
  | noPages => simp [parsePdfCore] at hok
  | withText content =>
    obtain ⟨f, award_dt, release_dt, q1, q2, hf, had, hrd, _, _, rfl⟩ :=
      parsePdfCore_ok hok
    obtain ⟨ba1, ba2, ba3, ba4, ba5, ba6⟩ := strptime_dmy_bounds had
    obtain ⟨br1, br2, br3, br4, br5, br6⟩ := strptime_dmy_bounds hrd
    refine ⟨isCanonicalDate_fmtDate ba1 ba2 (by omega) (by omega),
      isCanonicalDate_fmtDate br1 br2 (by omega) (by omega),
      isQty3_fmt3 _, isQty3_fmt3 _, ?_⟩
    obtain ⟨_, hid, _, _, _, _⟩ := extractAll_ok hf
    obtain ⟨g, hg, hveq⟩ := extract_field_ok hid
    show isAwardId f.award_id = true
    rw [hveq]
    exact awardId_isAwardId hg

/-- Witness for C6 at the concrete document `Tgood`. -/
theorem claim_C6_witness :
    isCanonicalDate (StockData.mk "2021/01/05" "C123456" "2022/07/15"
      "$1,234.5678" "10.000" "5.000").award_date = true ∧
    isCanonicalDate (StockData.mk "2021/01/05" "C123456" "2022/07/15"
      "$1,234.5678" "10.000" "5.000").release_date = true ∧
    isQty3 (StockData.mk "2021/01/05" "C123456" "2022/07/15"
      "$1,234.5678" "10.000" "5.000").quantity_released = true ∧
    isQty3 (StockData.mk "2021/01/05" "C123456" "2022/07/15"
      "$1,234.5678" "10.000" "5.000").quantity_net = true ∧
    isAwardId (StockData.mk "2021/01/05" "C123456" "2022/07/15"
      "$1,234.5678" "10.000" "5.000").award_id = true :=
  claim_C6 (PdfDoc.withText Tgood)
    (StockData.mk "2021/01/05" "C123456" "2022/07/15" "$1,234.5678"
      "10.000" "5.000")
    (by with_unfolding_all decide)

/-- C7: the Organizer computes the destination
`<output_root>/<release_year>/<YYYYMMDD> - Release Confirm - <award_id>.pdf`,
creates the year directory, and moves the source file there: afterwards
the destination exists and the original path does not; the example record
resolves to `out/2023/20230510 - Release Confirm - C123456.pdf`. -/
theorem claim_C7 (release_date_str award_id original_path output_dir : String)
    (dt : Date) (fs : FS)
    (hdt : strptime_ymd release_date_str = some dt)
    (hmem : original_path ∈ fs.files)
    (hne : original_path ≠ destPath dt award_id output_dir) :
    destPath dt award_id output_dir ∈
      (organize_report release_date_str award_id original_path output_dir fs).files ∧
    original_path ∉
      (organize_report release_date_str award_id original_path output_dir fs).files ∧
    yearFolder dt output_dir ∈
      (organize_report release_date_str award_id original_path output_dir fs).dirs ∧
    destPath ⟨2023, 5, 10⟩ "C123456" "out/" =
      "out/2023/20230510 - Release Confirm - C123456.pdf" := by
  unfold organize_report
  rw [hdt]
  dsimp only
  rw [if_pos hmem]
  refine ⟨by simp, ?_, ?_, by decide⟩
  · intro hin
    rcases List.mem_cons.mp hin with heq | hin2
    · exact hne heq
    · have := (List.mem_filter.mp hin2).2
      simp at this
  · by_cases hd : yearFolder dt output_dir ∈ fs.dirs
    · simp [hd]
    · simp [hd]

/-- Witness for C7 at a concrete record, file and output root. -/
theorem claim_C7_witness :
    destPath ⟨2023, 5, 10⟩ "C123456" "out/" ∈
      (organize_report "2023/05/10" "C123456" "in/report.pdf" "out/"
        (FS.mk [] ["in/report.pdf", "other.pdf"])).files ∧
    "in/report.pdf" ∉
      (organize_report "2023/05/10" "C123456" "in/report.pdf" "out/"
        (FS.mk [] ["in/report.pdf", "other.pdf"])).files ∧
    yearFolder ⟨2023, 5, 10⟩ "out/" ∈
      (organize_report "2023/05/10" "C123456" "in/report.pdf" "out/"
        (FS.mk [] ["in/report.pdf", "other.pdf"])).dirs ∧
    destPath ⟨2023, 5, 10⟩ "C123456" "out/" =
      "out/2023/20230510 - Release Confirm - C123456.pdf" :=
  claim_C7 "2023/05/10" "C123456" "in/report.pdf" "out/" ⟨2023, 5, 10⟩
    (FS.mk [] ["in/report.pdf", "other.pdf"])
    (by decide) (by decide) (by decide)

/-- C8 counterexample: with the `--write-csv` flag set but a batch whose
only document is unreadable, the run persists no `stocks.csv` at all, so
the claim "whenever the flag is set, the run persists the aggregate as a
table named stocks.csv" fails as stated. -/
theorem claim_C8_counterexample :
    writeCsvStep true (runBatch [PdfDoc.unreadable]) = none := rfl

/-- C8 (amended): whenever the `--write-csv` flag is set and at least one
document parsed successfully, the run persists a table named `stocks.csv`
whose rows are the header (the `StockData` fields in order) followed by
one line per record, sorted ascending by release date (a permutation of
the collected results). -/
theorem claim_C8 (results : List StockData) (h : results ≠ []) :
    writeCsvStep true results =
      some ("stocks.csv", renderCsv (sortRecords results)) ∧
    csvRows (sortRecords results) =
      STOCKDATA_FIELDS :: (sortRecords results).map recordRow ∧
    (csvRows (sortRecords results)).length = results.length + 1 ∧
    List.Pairwise (fun a b => recLe a b = true) (sortRecords results) ∧
    (sortRecords results).Perm results := by
  have hperm : (sortRecords results).Perm results :=
    List.perm_insertionSort _ results
  refine ⟨?_, rfl, ?_, ?_, hperm⟩
  · unfold writeCsvStep
    rw [if_pos]
    simp [h]
  · simp [csvRows, hperm.length_eq]
  · haveI : IsTotal StockData (fun a b => recLe a b = true) := ⟨by
      intro a b
      rcases lexLe_total a.release_date.data b.release_date.data with h2 | h2
      · exact Or.inl h2
      · exact Or.inr h2⟩
    haveI : IsTrans StockData (fun a b => recLe a b = true) :=
      ⟨fun a b c hab hbc => lexLe_trans _ _ _ hab hbc⟩
    exact List.sorted_insertionSort _ results

/-- Witness for C8 (amended) at a concrete one-record result list. -/
theorem claim_C8_witness :
    writeCsvStep true
      [StockData.mk "2021/01/05" "C123456" "2022/07/15" "$1,234.5678"
        "10.000" "5.000"] =
      some ("stocks.csv", renderCsv (sortRecords
        [StockData.mk "2021/01/05" "C123456" "2022/07/15" "$1,234.5678"
          "10.000" "5.000"])) ∧
    csvRows (sortRecords
      [StockData.mk "2021/01/05" "C123456" "2022/07/15" "$1,234.5678"
        "10.000" "5.000"]) =
      STOCKDATA_FIELDS :: (sortRecords
        [StockData.mk "2021/01/05" "C123456" "2022/07/15" "$1,234.5678"
          "10.000" "5.000"]).map recordRow ∧
    (csvRows (sortRecords
      [StockData.mk "2021/01/05" "C123456" "2022/07/15" "$1,234.5678"
        "10.000" "5.000"])).length =
      [StockData.mk "2021/01/05" "C123456" "2022/07/15" "$1,234.5678"
        "10.000" "5.000"].length + 1 ∧
    List.Pairwise (fun a b => recLe a b = true) (sortRecords
      [StockData.mk "2021/01/05" "C123456" "2022/07/15" "$1,234.5678"
        "10.000" "5.000"]) ∧
    (sortRecords
      [StockData.mk "2021/01/05" "C123456" "2022/07/15" "$1,234.5678"
        "10.000" "5.000"]).Perm
      [StockData.mk "2021/01/05" "C123456" "2022/07/15" "$1,234.5678"
        "10.000" "5.000"] :=
  claim_C8 [StockData.mk "2021/01/05" "C123456" "2022/07/15" "$1,234.5678"
    "10.000" "5.000"] (by decide)

/-- C9 counterexample: the text `Tvest` extracts successfully with vest
price `$123x4567`, which does not conform to the claimed currency shape
(it has no decimal point): the source pattern's dot is unescaped and its
comma and leading digit are optional. -/
theorem claim_C9_counterexample :
    extractAll Tvest = Except.ok (ExtractedFields.mk "05-Jan-2021" "C123456"
      "15-Jul-2022" "$123x4567" "10.0000" "5.0000") ∧
    claimedCurrency "$123x4567".data = false := by
  refine ⟨by decide, by decide⟩

/-- C9 (amended): for every input text on which extraction succeeds, the
extracted vest price matches the shape actually guaranteed by the source
pattern `\$\d?,?\d{2,3}.\d{4}`: a dollar sign, at most one digit, an
optional comma, two or three digits, one arbitrary non-newline character
(not necessarily a decimal point), and four digits. -/
theorem claim_C9 (content : String) (f : ExtractedFields)
    (h : extractAll content = Except.ok f) : VestShape f.vest_price := by
  obtain ⟨_, _, _, hv, _, _⟩ := extractAll_ok h
  obtain ⟨g, hg, hveq⟩ := extract_field_ok hv
  rw [hveq]
  exact vestPrice_VestShape hg

/-- Witness for C9 (amended) at the concrete document `Tgood`. -/
theorem claim_C9_witness :
    VestShape (ExtractedFields.mk "05-Jan-2021" "C123456" "15-Jul-2022"
      "$1,234.5678" "10.0000" "5.0000").vest_price :=
  claim_C9 Tgood (ExtractedFields.mk "05-Jan-2021" "C123456" "15-Jul-2022"
    "$1,234.5678" "10.0000" "5.0000") (by decide)

/-- C10: if the `--write-csv` flag is set but zero documents parse
successfully, no `stocks.csv` output is produced at all, while the summary
of counts and totals is still produced (zero reports, total `0.000`). -/
theorem claim_C10 (docs : List PdfDoc) (h : ∀ d ∈ docs, parse_pdf d = none) :
    mainRun docs true = some ((0, "0.000"), none) := by
  have hrb : runBatch docs = [] := by
    unfold runBatch
    exact List.filterMap_eq_nil_iff.mpr h
  unfold mainRun
  rw [hrb]
  with_unfolding_all decide

/-- Witness for C10 at a concrete batch whose documents all fail. -/
theorem claim_C10_witness :
    mainRun [PdfDoc.unreadable, PdfDoc.noPages] true = some ((0, "0.000"), none) :=
  claim_C10 [PdfDoc.unreadable, PdfDoc.noPages] (by decide)
